import Mathlib

/-!
# Verification of the gps-track GPX viewer core

Shallow embedding of the repository's core modules:

* `src/utils/gpxParser.ts` — dual-strategy GPX parser and the worker
  serialization codec (`parsePoint`, `parseGPXFallback`, `parseGPX`,
  `serializeGPXData`, `deserializeGPXData`),
* `src/utils/trackStats.ts` — `haversineDistance`, `computeTrackStats`,
  `computeElevationProfile`,
* `src/utils/workerPool.ts` — `WorkerPool` (submission / response /
  `terminate` life cycle).

Modelling conventions:

* JavaScript numbers are modelled by `JSNum`: `NaN`, the two infinities, and
  finite values carried exactly as rationals.  Arithmetic on `JSNum` follows
  IEEE special-value propagation; finite arithmetic is exact (the idealisation
  of floating point used throughout this development).
* `Date` values are modelled by `DateVal`: either an invalid date or a valid
  epoch-millisecond instant.  The host's `Date.prototype.toISOString` and
  ISO-8601 `new Date(string)` parsing are modelled concretely, down to the
  characters, by `toISOString` / `parseISOChars` via the proleptic Gregorian
  calendar (`civilFromDays` / `daysFromCivil`); `new Date` accepts further
  non-ISO formats which never arise in this code's round trips.
* DOM documents are modelled by the `XNode` tree the host `DOMParser`
  produces.  An ill-formed markup string makes the host return a document
  containing a `parsererror` element, which is exactly what the code tests
  for; the embedding therefore takes the parsed tree as input.
* The `@mapbox/togeojson` converter is an external dependency (not part of
  this repository); its output is modelled as an arbitrary well-shaped
  `FeatureCollection` value, and a conversion failure as an `Except.error`.
-/

/-! ## JavaScript numbers -/

/-- A JavaScript number: `NaN`, `Infinity`, `-Infinity`, or a finite value
(carried exactly as a rational). -/
inductive JSNum where
  | nan : JSNum
  | inf : JSNum
  | ninf : JSNum
  | fin (q : ℚ) : JSNum
deriving DecidableEq

namespace JSNum

/-- JS `isNaN` on a number. -/
def isNaN : JSNum → Bool
  | nan => true
  | _ => false

/-- JS truthiness of a number: `NaN` and `0` are falsy. -/
def truthy : JSNum → Bool
  | nan => false
  | fin q => q != 0
  | _ => true

/-- JS addition, with IEEE special-value propagation. -/
def add : JSNum → JSNum → JSNum
  | nan, _ => nan
  | _, nan => nan
  | inf, ninf => nan
  | ninf, inf => nan
  | inf, _ => inf
  | _, inf => inf
  | ninf, _ => ninf
  | _, ninf => ninf
  | fin a, fin b => fin (a + b)

/-- JS negation. -/
def neg : JSNum → JSNum
  | nan => nan
  | inf => ninf
  | ninf => inf
  | fin a => fin (-a)

/-- JS subtraction. -/
def sub (a b : JSNum) : JSNum := add a (neg b)

/-- JS `Math.abs`. -/
def abs : JSNum → JSNum
  | nan => nan
  | inf => inf
  | ninf => inf
  | fin a => fin |a|

/-- JS `<` comparison (false whenever an operand is `NaN`). -/
def ltb : JSNum → JSNum → Bool
  | nan, _ => false
  | _, nan => false
  | inf, _ => false
  | _, inf => true
  | ninf, ninf => false
  | ninf, _ => true
  | _, ninf => false
  | fin a, fin b => a < b

/-- JS `>` comparison. -/
def gtb (a b : JSNum) : Bool := ltb b a

/-- JS division, with IEEE special-value behaviour (`x/0` is a signed
infinity for `x ≠ 0` and `NaN` for `x = 0`). -/
def div : JSNum → JSNum → JSNum
  | nan, _ => nan
  | _, nan => nan
  | inf, inf => nan
  | inf, ninf => nan
  | ninf, inf => nan
  | ninf, ninf => nan
  | inf, fin b => if b < 0 then ninf else inf
  | ninf, fin b => if b < 0 then inf else ninf
  | fin _, inf => fin 0
  | fin _, ninf => fin 0
  | fin a, fin b =>
    if b = 0 then (if a = 0 then nan else if a < 0 then ninf else inf)
    else fin (a / b)

/-- Coercion of a JS number to the reals used by the transcendental parts of
the geometry kernel; the non-finite values collapse to the junk value `0`
(no theorem below inspects a distance computed from non-finite
coordinates). -/
noncomputable def toReal : JSNum → ℝ
  | fin q => (q : ℝ)
  | _ => 0

end JSNum

/-! ## parseFloat

Model of JS `parseFloat`: skip leading whitespace, then read the longest
prefix that is a signed decimal literal (`digits [. digits] [e[±]digits]`) or
a signed `Infinity`; the result is `NaN` when no such prefix exists.  Finite
values are exact rationals (double rounding and overflow to `Infinity` for
huge literals are outside this model). -/

/-- Numeric value of a digit character. -/
def digitVal (c : Char) : ℕ := c.toNat - 48

/-- Value of a list of decimal digit characters (most significant first),
accumulated onto `acc`. -/
def digitsVal (acc : ℕ) : List Char → ℕ
  | [] => acc
  | c :: cs => digitsVal (acc * 10 + digitVal c) cs

/-- The exponent part of a JS number literal: `e`/`E`, optional sign, digits.
Returns the exponent and the rest; an exponent marker not followed by digits
is not consumed (as in `parseFloat("12e")`). -/
def parseExponent (cs : List Char) : ℤ × List Char :=
  match cs with
  | 'e' :: rest => parseExponentTail rest cs
  | 'E' :: rest => parseExponentTail rest cs
  | _ => (0, cs)
where
  /-- Reads `[+|-]digits` after the exponent marker; falls back to the
  original input when no digits follow. -/
  parseExponentTail (rest orig : List Char) : ℤ × List Char :=
    match rest with
    | '+' :: rest2 =>
      let ds := rest2.takeWhile Char.isDigit
      if ds.isEmpty then (0, orig) else ((digitsVal 0 ds : ℤ), rest2.dropWhile Char.isDigit)
    | '-' :: rest2 =>
      let ds := rest2.takeWhile Char.isDigit
      if ds.isEmpty then (0, orig) else (-(digitsVal 0 ds : ℤ), rest2.dropWhile Char.isDigit)
    | _ =>
      let ds := rest.takeWhile Char.isDigit
      if ds.isEmpty then (0, orig) else ((digitsVal 0 ds : ℤ), rest.dropWhile Char.isDigit)

/-- The unsigned part of `parseFloat`: `Infinity`, or a decimal literal. -/
def parseFloatUnsigned (cs : List Char) : Option JSNum :=
  match cs with
  | 'I' :: 'n' :: 'f' :: 'i' :: 'n' :: 'i' :: 't' :: 'y' :: _ => some JSNum.inf
  | _ =>
    let intDigits := cs.takeWhile Char.isDigit
    let rest := cs.dropWhile Char.isDigit
    let (fracDigits, rest2) :=
      match rest with
      | '.' :: r => (r.takeWhile Char.isDigit, r.dropWhile Char.isDigit)
      | _ => ([], rest)
    if intDigits.isEmpty && fracDigits.isEmpty then none
    else
      let mantissa : ℚ :=
        (digitsVal 0 intDigits : ℚ) + (digitsVal 0 fracDigits : ℚ) / ((10 : ℚ) ^ fracDigits.length)
      let (e, _) := parseExponent rest2
      some (JSNum.fin (mantissa * (10 : ℚ) ^ e))

/-- JS `parseFloat`. -/
def parseFloat (s : String) : JSNum :=
  let cs := s.data.dropWhile Char.isWhitespace
  match cs with
  | '+' :: rest => (parseFloatUnsigned rest).getD JSNum.nan
  | '-' :: rest =>
    match parseFloatUnsigned rest with
    | some n => n.neg
    | none => JSNum.nan
  | _ => (parseFloatUnsigned cs).getD JSNum.nan

/-! ## Dates and the ISO-8601 codec

`DateVal` models a JS `Date`: invalid, or a valid epoch-millisecond instant
(valid instants satisfy `|ms| ≤ 8.64e15`, the ECMAScript time range). -/

/-- A JS `Date` value. -/
inductive DateVal where
  | invalid : DateVal
  | valid (ms : ℤ) : DateVal
deriving DecidableEq

/-- JS `Date.prototype.getTime`: `NaN` for an invalid date. -/
def DateVal.getTime : DateVal → JSNum
  | .invalid => JSNum.nan
  | .valid ms => JSNum.fin (ms : ℚ)

/-- The ECMAScript maximal absolute time value (milliseconds). -/
def maxTimeMs : ℤ := 8640000000000000

/-- Year of era from day of era (proleptic Gregorian, eras of 400 years =
146097 days starting 0000-03-01). -/
def yoeOfDoe (doe : ℕ) : ℕ := (doe - doe / 1460 + doe / 36524 - doe / 146096) / 365

/-- Day of era on which year-of-era `y` starts. -/
def yodOfYoe (y : ℕ) : ℕ := 365 * y + y / 4 - y / 100

/-- The last day of era of year-of-era `y` (`y < 400`). -/
def endOfYoe (y : ℕ) : ℕ := if y = 399 then 146096 else yodOfYoe (y + 1) - 1

/-- Civil date `(year, month, day)` from days since the Unix epoch. -/
def civilFromDays (z : ℤ) : ℤ × ℕ × ℕ :=
  let zs := z + 719468
  let era : ℤ := zs / 146097
  let doe : ℕ := (zs % 146097).toNat
  let yoe := yoeOfDoe doe
  let doy := doe - yodOfYoe yoe
  let mp := (5 * doy + 2) / 153
  let d := doy - (153 * mp + 2) / 5 + 1
  let m := if mp < 10 then mp + 3 else mp - 9
  (era * 400 + yoe + (if m ≤ 2 then 1 else 0), m, d)

/-- Days since the Unix epoch from a civil date. -/
def daysFromCivil (y : ℤ) (m d : ℕ) : ℤ :=
  let ya := y - (if m ≤ 2 then 1 else 0)
  let era : ℤ := ya / 400
  let yoe : ℕ := (ya - era * 400).toNat
  let mp := if 3 ≤ m then m - 3 else m + 9
  let doy := (153 * mp + 2) / 5 + d - 1
  (era * 146097 + (yodOfYoe yoe + doy : ℕ)) - 719468

/-- Fixed-width decimal print of `n` (`k` digits, most significant first). -/
def padChars : ℕ → ℕ → List Char
  | 0, _ => []
  | k + 1, n => Char.ofNat (48 + n / 10 ^ k % 10) :: padChars k (n % 10 ^ k)

/-- The year field of `Date.prototype.toISOString`: four digits for years
0–9999, otherwise a sign and six digits. -/
def yearChars (y : ℤ) : List Char :=
  if 0 ≤ y ∧ y ≤ 9999 then padChars 4 y.toNat
  else if y < 0 then '-' :: padChars 6 (-y).toNat
  else '+' :: padChars 6 y.toNat

/-- Characters of `Date.prototype.toISOString` applied to the valid instant
`t` (milliseconds since the Unix epoch). -/
def isoChars (t : ℤ) : List Char :=
  let days : ℤ := t / 86400000
  let msod : ℕ := (t % 86400000).toNat
  let ymd := civilFromDays days
  yearChars ymd.1 ++ '-' :: padChars 2 ymd.2.1 ++ '-' :: padChars 2 ymd.2.2 ++
    'T' :: padChars 2 (msod / 3600000) ++ ':' :: padChars 2 (msod % 3600000 / 60000) ++
    ':' :: padChars 2 (msod % 60000 / 1000) ++ '.' :: padChars 3 (msod % 1000) ++ ['Z']

/-- JS `Date.prototype.toISOString` (defined on valid instants). -/
def toISOString (t : ℤ) : String := String.mk (isoChars t)

/-- Reads exactly `k` decimal digits, extending the accumulator `acc`. -/
def readDigits : ℕ → ℕ → List Char → Option (ℕ × List Char)
  | 0, acc, cs => some (acc, cs)
  | k + 1, acc, c :: cs =>
    if c.isDigit then readDigits k (acc * 10 + digitVal c) cs else none
  | _ + 1, _, [] => none

/-- Consumes one expected character. -/
def expectChar (c : Char) : List Char → Option (List Char)
  | x :: xs => if x = c then some xs else none
  | [] => none

/-- Reads one separator character followed by `k` digits. -/
def readSep (c : Char) (k : ℕ) (cs : List Char) : Option (ℕ × List Char) :=
  match expectChar c cs with
  | some r => readDigits k 0 r
  | none => none

/-- The year field of the ISO grammar: a sign with six digits, or four
digits. -/
def parseISOYear (cs : List Char) : Option (ℤ × List Char) :=
  match cs with
  | [] => none
  | c :: cs2 =>
    if c = '+' then (readDigits 6 0 cs2).map (fun p => ((p.1 : ℤ), p.2))
    else if c = '-' then (readDigits 6 0 cs2).map (fun p => (-(p.1 : ℤ), p.2))
    else (readDigits 4 0 (c :: cs2)).map (fun p => ((p.1 : ℤ), p.2))

/-- Epoch milliseconds of a fully read ISO date-time, rejecting instants
outside the ECMAScript time range (as `Date` does). -/
def assembleISO (y : ℤ) (mo d h mi s ms : ℕ) : Option ℤ :=
  let t : ℤ := daysFromCivil y mo d * 86400000 + ((h * 3600000 + mi * 60000 + s * 1000 + ms : ℕ) : ℤ)
  if t.natAbs ≤ maxTimeMs.toNat then some t else none

/-- The `:SS.mmmZ` tail of the ISO grammar. -/
def parseISOSecondsTail (y : ℤ) (mo d h mi : ℕ) (r : List Char) : Option ℤ :=
  (readSep ':' 2 r).bind (fun ps =>
    (readSep '.' 3 ps.2).bind (fun pms =>
      if pms.2 = ['Z'] then assembleISO y mo d h mi ps.1 pms.1 else none))

/-- The `THH:MM` part of the ISO grammar. -/
def parseISOTimeTail (y : ℤ) (mo d : ℕ) (r : List Char) : Option ℤ :=
  (readSep 'T' 2 r).bind (fun ph =>
    (readSep ':' 2 ph.2).bind (fun pmi => parseISOSecondsTail y mo d ph.1 pmi.1 pmi.2))

/-- The `-MM-DD` part of the ISO grammar. -/
def parseISODateTail (y : ℤ) (r : List Char) : Option ℤ :=
  (readSep '-' 2 r).bind (fun pm =>
    (readSep '-' 2 pm.2).bind (fun pd => parseISOTimeTail y pm.1 pd.1 pd.2))

/-- The ISO-8601 date-time grammar produced by `toISOString`
(`[±YYYYYY|YYYY]-MM-DDTHH:MM:SS.mmmZ`), evaluated to epoch milliseconds. -/
def parseISOChars (cs : List Char) : Option ℤ :=
  (parseISOYear cs).bind (fun py => parseISODateTail py.1 py.2)

/-- JS `new Date(string)`, restricted to the ISO-8601 fragment relevant here
(the host accepts further legacy formats, none of which are produced by this
code). -/
def jsNewDate (s : String) : DateVal :=
  match parseISOChars s.data with
  | some t => DateVal.valid t
  | none => DateVal.invalid

/-! ## DOM documents

`XNode` models the tree `DOMParser.parseFromString(text, 'text/xml')`
returns.  When the markup is ill-formed the host returns a document
containing a `parsererror` element, which is the failure signal the code
checks; so ill-formedness is represented by the presence of such an element
in the tree. -/

/-- An XML DOM node: an element with attributes and children, or a text
node. -/
inductive XNode where
  | element (tag : String) (attrs : List (String × String)) (children : List XNode)
  | text (s : String)

namespace XNode

/-- Whether a node is an element with the given tag name. -/
def isElement (tag : String) : XNode → Bool
  | element t _ _ => t == tag
  | text _ => false

mutual

/-- All element descendants of a node in document (pre)order, the node
itself excluded. -/
def descendants : XNode → List XNode
  | element _ _ cs => descList cs
  | text _ => []

/-- Elements of a forest together with their element descendants,
preorder. -/
def descList : List XNode → List XNode
  | [] => []
  | c :: cs =>
    (match c with
     | element t a ch => [element t a ch]
     | text _ => []) ++ descendants c ++ descList cs

end

mutual

/-- The `textContent` of a node: the concatenation of all descendant text. -/
def textContent : XNode → String
  | element _ _ cs => textContentList cs
  | text s => s

/-- Concatenated text of a forest. -/
def textContentList : List XNode → String
  | [] => ""
  | c :: cs => textContent c ++ textContentList cs

end

/-- `getAttribute`: the value of the first attribute with the given name,
`null` (here `none`) when absent. -/
def getAttribute (name : String) : XNode → Option String
  | element _ attrs _ => (attrs.find? (fun a => a.1 == name)).map Prod.snd
  | text _ => none

/-- `querySelectorAll(tag)` on an element: matching element descendants in
document order (a bare CSS type selector matches any namespace, hence plain
local-name comparison). -/
def qsAll (el : XNode) (tag : String) : List XNode :=
  el.descendants.filter (isElement tag)

/-- `querySelector(tag)` on an element. -/
def qs (el : XNode) (tag : String) : Option XNode :=
  (el.qsAll tag).head?

end XNode

/-- `querySelectorAll(tag)` on the document whose root element is `d`
(the root itself is a candidate match). -/
def docAll (d : XNode) (tag : String) : List XNode :=
  (d :: d.descendants).filter (XNode.isElement tag)

/-- `querySelector(tag)` on the document whose root element is `d`. -/
def docQS (d : XNode) (tag : String) : Option XNode :=
  (docAll d tag).head?

/-! ## The normalized track model (`gpxParser.ts`) -/

/-- `Waypoint` of `gpxParser.ts`: mandatory coordinates, optional elevation,
timestamp and name. -/
structure Waypoint where
  lat : JSNum
  lng : JSNum
  ele : Option JSNum
  time : Option DateVal
  name : Option String
deriving DecidableEq

/-- `TrackSegment`: the points of one continuous run. -/
structure TrackSegment where
  points : List Waypoint
deriving DecidableEq

/-- `GPXData`: the normalized result of parsing one document. -/
structure GPXData where
  name : Option String
  desc : Option String
  author : Option String
  tracks : List TrackSegment
  waypoints : List Waypoint
deriving DecidableEq

/-- `parsePoint` of `gpxParser.ts`: reads `lat`/`lon` attributes (dropping
the point when either is missing or parses to `NaN`), then the optional
`ele`, `time` and `name` children (`if (el?.textContent)` makes an empty
text falsy, hence skipped). -/
def parsePoint (el : XNode) : Option Waypoint :=
  match el.getAttribute "lat", el.getAttribute "lon" with
  | some latAttr, some lonAttr =>
    let lat := parseFloat latAttr
    let lon := parseFloat lonAttr
    if lat.isNaN || lon.isNaN then none
    else
      some
        { lat := lat, lng := lon,
          ele :=
            match el.qs "ele" with
            | some eleEl =>
              if eleEl.textContent ≠ "" then
                let e := parseFloat eleEl.textContent
                if e.isNaN then none else some e
              else none
            | none => none,
          time :=
            match el.qs "time" with
            | some timeEl =>
              if timeEl.textContent ≠ "" then
                let tv := jsNewDate timeEl.textContent
                if tv.getTime.isNaN then none else some tv
              else none
            | none => none,
          name :=
            match el.qs "name" with
            | some nameEl =>
              if nameEl.textContent ≠ "" then some nameEl.textContent else none
            | none => none }
  | _, _ => none

/-- `parseGPXFallback` of `gpxParser.ts` on the parsed document: fails when
the document contains a `parsererror` element, otherwise walks `trk >
trkseg > trkpt`, `rte > rtept` and `wpt`, materializing only non-empty
segments. -/
def parseGPXFallback (d : XNode) : Except String GPXData :=
  if (docQS d "parsererror").isSome then .error "Error parsing GPX XML"
  else
    .ok
      { name :=
          match docQS d "name" with
          | some el => if el.textContent = "" then none else some el.textContent
          | none => none,
        desc :=
          match docQS d "desc" with
          | some el => if el.textContent = "" then none else some el.textContent
          | none => none,
        author := none,
        tracks :=
          (docAll d "trk").flatMap (fun trackEl =>
            (trackEl.qsAll "trkseg").filterMap (fun segEl =>
              let points := (segEl.qsAll "trkpt").filterMap parsePoint
              if points.isEmpty then none else some ⟨points⟩)) ++
          (docAll d "rte").filterMap (fun rteEl =>
            let points := (rteEl.qsAll "rtept").filterMap parsePoint
            if points.isEmpty then none else some ⟨points⟩),
        waypoints := (docAll d "wpt").filterMap parsePoint }

/-! ## The conversion-backed strategy

`@mapbox/togeojson` is an external dependency; its output is modelled as a
well-shaped GeoJSON value (positions always carry longitude and latitude,
optionally elevation), and any conversion failure as an `Except.error`. -/

/-- A GeoJSON position `[lng, lat, (ele)]`. -/
structure Coord where
  lng : JSNum
  lat : JSNum
  ele : Option JSNum
deriving DecidableEq

/-- The geometries `parseGPX` distinguishes. -/
inductive Geometry where
  | lineString (coords : List Coord)
  | multiLineString (lines : List (List Coord))
  | point (coord : Coord)
  | other
deriving DecidableEq

/-- A GeoJSON feature with the metadata `parseGPX` reads. -/
structure Feature where
  geometry : Geometry
  propName : Option String
  propTime : Option String
deriving DecidableEq

/-- A GeoJSON feature collection with the metadata `parseGPX` reads. -/
structure FeatureCollection where
  features : List Feature
  name : Option String
  description : Option String
deriving DecidableEq

/-- `coordToWaypoint` of `gpxParser.ts`. -/
def coordToWaypoint (c : Coord) : Waypoint :=
  { lng := c.lng, lat := c.lat, ele := c.ele, time := none, name := none }

/-- The feature-collection walk inside `parseGPX`: every line geometry
becomes one segment (a multi-line one segment per line), point geometries
become standalone waypoints with `name`/`time` taken from truthy feature
properties (`wp.time = new Date(...)` is stored without a validity check). -/
def convertFeatures (fc : FeatureCollection) : GPXData :=
  let acc := fc.features.foldl
    (fun (acc : List TrackSegment × List Waypoint) f =>
      match f.geometry with
      | .lineString coords => (acc.1 ++ [⟨coords.map coordToWaypoint⟩], acc.2)
      | .multiLineString lines =>
        (acc.1 ++ lines.map (fun coords => ⟨coords.map coordToWaypoint⟩), acc.2)
      | .point coord =>
        let wp := coordToWaypoint coord
        let wp :=
          match f.propName with
          | some n => if n ≠ "" then { wp with name := some n } else wp
          | none => wp
        let wp :=
          match f.propTime with
          | some t => if t ≠ "" then { wp with time := some (jsNewDate t) } else wp
          | none => wp
        (acc.1, acc.2 ++ [wp])
      | .other => acc)
    ([], [])
  { name := fc.name, desc := fc.description, author := none,
    tracks := acc.1, waypoints := acc.2 }

/-- `parseGPX` of `gpxParser.ts`: the conversion-backed strategy first (its
`parsererror` check throws inside the `try`), any failure falling back to
`parseGPXFallback`.  `conv` is the outcome of importing and running the
external converter on the document. -/
def parseGPX (conv : Except String FeatureCollection) (d : XNode) : Except String GPXData :=
  if (docQS d "parsererror").isSome then parseGPXFallback d
  else
    match conv with
    | .ok fc => .ok (convertFeatures fc)
    | .error _ => parseGPXFallback d

/-! ## Serialization codec (`gpxParser.ts`, worker boundary) -/

/-- `SerializedWaypoint`: the transport form (`Date` replaced by its ISO
string). -/
structure SerializedWaypoint where
  lat : JSNum
  lng : JSNum
  ele : Option JSNum
  time : Option String
  name : Option String
deriving DecidableEq

/-- One serialized segment (`{ points: SerializedWaypoint[] }`). -/
structure SerializedSegment where
  points : List SerializedWaypoint
deriving DecidableEq

/-- `SerializedGPXData`: the transport form of a track. -/
structure SerializedGPXData where
  name : Option String
  desc : Option String
  author : Option String
  tracks : List SerializedSegment
  waypoints : List SerializedWaypoint
deriving DecidableEq

/-- `serializeWaypoint` of `gpxParser.ts`.  `if (wp.ele !== undefined)`
keeps any present elevation; `if (wp.time)` is true for every `Date` object
(also an invalid one, whose `toISOString()` then throws, hence the
`Except`); `if (wp.name)` drops an empty name. -/
def serializeWaypoint (wp : Waypoint) : Except String SerializedWaypoint :=
  match wp.time with
  | some .invalid => .error "Invalid time value"
  | some (.valid t) =>
    .ok { lat := wp.lat, lng := wp.lng, ele := wp.ele, time := some (toISOString t),
          name := match wp.name with
            | some n => if n ≠ "" then some n else none
            | none => none }
  | none =>
    .ok { lat := wp.lat, lng := wp.lng, ele := wp.ele, time := none,
          name := match wp.name with
            | some n => if n ≠ "" then some n else none
            | none => none }

/-- `deserializeWaypoint` of `gpxParser.ts`.  `if (sw.time)` is string
truthiness (an empty string would be skipped); `new Date` is applied without
a validity check. -/
def deserializeWaypoint (sw : SerializedWaypoint) : Waypoint :=
  { lat := sw.lat, lng := sw.lng, ele := sw.ele,
    time :=
      match sw.time with
      | some s => if s ≠ "" then some (jsNewDate s) else none
      | none => none,
    name :=
      match sw.name with
      | some n => if n ≠ "" then some n else none
      | none => none }

/-- `serializeGPXData` of `gpxParser.ts` (a thrown `toISOString` RangeError
propagates). -/
def serializeGPXData (data : GPXData) : Except String SerializedGPXData :=
  match data.tracks.mapM (fun t => (t.points.mapM serializeWaypoint).map SerializedSegment.mk),
        data.waypoints.mapM serializeWaypoint with
  | .ok ts, .ok ws =>
    .ok { name := data.name, desc := data.desc, author := data.author,
          tracks := ts, waypoints := ws }
  | .error e, _ => .error e
  | _, .error e => .error e

/-- `deserializeGPXData` of `gpxParser.ts`. -/
def deserializeGPXData (data : SerializedGPXData) : GPXData :=
  { name := data.name, desc := data.desc, author := data.author,
    tracks := data.tracks.map (fun t => ⟨t.points.map deserializeWaypoint⟩),
    waypoints := data.waypoints.map deserializeWaypoint }

deriving instance DecidableEq for Except

/-- Transport safety of one waypoint: its name is not the empty string
(which `if (wp.name)` would drop) and its timestamp, when present, is a
valid instant in the ECMAScript range (an invalid date makes
`toISOString` throw).  Both parser strategies guarantee the name part; the
fallback strategy also guarantees the time part. -/
def goodWaypoint (wp : Waypoint) : Bool :=
  (wp.name != some "") &&
    (match wp.time with
     | none => true
     | some DateVal.invalid => false
     | some (DateVal.valid ms) => decide (ms.natAbs ≤ 8640000000000000))

/-- Transport safety of a whole track model. -/
def goodGPXData (t : GPXData) : Bool :=
  t.tracks.all (fun seg => seg.points.all goodWaypoint) && t.waypoints.all goodWaypoint

/-! ## Concrete sample inputs used by the witness and counterexample
theorems -/

/-- A `trkpt` whose `lat` and `lon` attributes parse to `Infinity` (a
non-finite number that passes the code's `isNaN` test). -/
def infLatTrkpt : XNode :=
  XNode.element "trkpt" [("lat", "Infinity"), ("lon", "Infinity")] []

/-- A well-formed document containing `infLatTrkpt`. -/
def infLatDoc : XNode :=
  XNode.element "gpx" [] [XNode.element "trk" [] [XNode.element "trkseg" [] [infLatTrkpt]]]

/-- A minimal well-formed GPX document. -/
def plainGpxDoc : XNode := XNode.element "gpx" [] []

/-- A well-formed document that happens to contain a literal
`parsererror` element (as produced by the host DOM parser from the
well-formed markup `<gpx><parsererror/></gpx>`). -/
def litParsererrorDoc : XNode :=
  XNode.element "gpx" [] [XNode.element "parsererror" [] []]

/-- A document whose only point element lacks its `lat` attribute. -/
def missingLatDoc : XNode :=
  XNode.element "gpx" []
    [XNode.element "trk" []
      [XNode.element "trkseg" [] [XNode.element "trkpt" [("lon", "8.0")] []]],
     XNode.element "wpt" [("lat", "abc"), ("lon", "1")] []]

/-- A conversion result containing a line feature with no coordinates. -/
def emptyLineFC : FeatureCollection :=
  ⟨[⟨Geometry.lineString [], none, none⟩], none, none⟩

/-- A conversion result whose point feature carries a `time` property that
does not parse as a date. -/
def badTimeFC : FeatureCollection :=
  ⟨[⟨Geometry.point ⟨JSNum.fin 0, JSNum.fin 0, none⟩, none, some "garbage"⟩], none, none⟩

/-- One elevation-bearing point at the origin. -/
def sampleElePoint : Waypoint := ⟨JSNum.fin 0, JSNum.fin 0, some (JSNum.fin 0), none, none⟩

/-- A segment long enough to trigger the elevation-profile downsampler. -/
def bigProfileSeg : TrackSegment := ⟨List.replicate 5001 sampleElePoint⟩

/-- A one-point segment, below the downsampling threshold. -/
def smallProfileSeg : TrackSegment := ⟨[sampleElePoint]⟩

/-- A segment with an infinite elevation run followed by a finite one
(`<ele>Infinity</ele>` is producible by the fallback parser). -/
def infEleSeg : TrackSegment :=
  ⟨[⟨JSNum.fin 0, JSNum.fin 0, some JSNum.inf, none, none⟩,
    ⟨JSNum.fin 0, JSNum.fin 0, some JSNum.inf, none, none⟩,
    ⟨JSNum.fin 0, JSNum.fin 0, some (JSNum.fin 5), none, none⟩]⟩

/-- A segment of three points with finite elevations 0, 5 and 3. -/
def finEleSeg : TrackSegment :=
  ⟨[⟨JSNum.fin 0, JSNum.fin 0, some (JSNum.fin 0), none, none⟩,
    ⟨JSNum.fin 0, JSNum.fin 0, some (JSNum.fin 5), none, none⟩,
    ⟨JSNum.fin 0, JSNum.fin 0, some (JSNum.fin 3), none, none⟩]⟩

/-- A two-point segment with timestamps ten seconds apart. -/
def timedSeg : TrackSegment :=
  ⟨[⟨JSNum.fin 0, JSNum.fin 0, none, some (DateVal.valid 0), none⟩,
    ⟨JSNum.fin 0, JSNum.fin 0, none, some (DateVal.valid 10000), none⟩]⟩

/-- A document with one fully featured waypoint. -/
def wptTimeDoc : XNode :=
  XNode.element "gpx" []
    [XNode.element "wpt" [("lat", "1.5"), ("lon", "2.5")]
      [XNode.element "ele" [] [XNode.text "100"],
       XNode.element "time" [] [XNode.text "2020-05-06T07:08:09.010Z"],
       XNode.element "name" [] [XNode.text "Summit"]]]

/-- The track model `parseGPXFallback` produces from `wptTimeDoc`. -/
def wptTimeData : GPXData :=
  { name := some "Summit", desc := none, author := none, tracks := [],
    waypoints := [⟨JSNum.fin (3/2), JSNum.fin (5/2), some (JSNum.fin 100),
      some (DateVal.valid 1588748889010), some "Summit"⟩] }

/-! ## Track statistics engine (`trackStats.ts`)

Real numbers stand for the exact values of the floating-point computation;
the transcendental haversine formula forces the distance accumulator into
`ℝ`, with `JSNum.toReal` coercing the stored coordinates. -/

/-- JS `Math.atan2` over the reals (the branches relevant here are
`x > 0`, and `x = 0` with `y ≥ 0`). -/
noncomputable def jsAtan2 (y x : ℝ) : ℝ :=
  if 0 < x then Real.arctan (y / x)
  else if x < 0 then
    (if 0 ≤ y then Real.arctan (y / x) + Real.pi else Real.arctan (y / x) - Real.pi)
  else if 0 < y then Real.pi / 2
  else if y < 0 then -(Real.pi / 2)
  else 0

/-- `haversineDistance` of `trackStats.ts` (Earth radius 6371e3 m);
`Math.sqrt` of a negative argument never occurs because the intermediate `a`
stays in `[0, 1]` in exact arithmetic (proved below). -/
noncomputable def haversineDistance (p1 p2 : Waypoint) : ℝ :=
  let toRad := fun (d : ℝ) => d * Real.pi / 180
  let dLat := toRad (p2.lat.toReal - p1.lat.toReal)
  let dLng := toRad (p2.lng.toReal - p1.lng.toReal)
  let a := Real.sin (dLat / 2) ^ 2 +
    Real.cos (toRad p1.lat.toReal) * Real.cos (toRad p2.lat.toReal) * Real.sin (dLng / 2) ^ 2
  6371000 * 2 * jsAtan2 (Real.sqrt a) (Real.sqrt (1 - a))

/-- `TrackStats` of `trackStats.ts`. -/
structure TrackStats where
  distance : ℝ
  elevGain : JSNum
  elevLoss : JSNum
  duration : Option JSNum
  avgSpeed : Option ℝ
  maxEle : Option JSNum
  minEle : Option JSNum

/-- The running accumulator of the `computeTrackStats` loop. -/
structure StatsAcc where
  distance : ℝ
  elevGain : JSNum
  elevLoss : JSNum
  maxEle : Option JSNum
  minEle : Option JSNum

/-- The `maxEle`/`minEle` update applied to every point carrying an
elevation (`maxEle === null || ele > maxEle`, and dually). -/
def statsUpdateMinMax (acc : StatsAcc) (p : Waypoint) : StatsAcc :=
  match p.ele with
  | some e =>
    { acc with
      maxEle :=
        match acc.maxEle with
        | none => some e
        | some m => if JSNum.gtb e m then some e else some m,
      minEle :=
        match acc.minEle with
        | none => some e
        | some m => if JSNum.ltb e m then some e else some m }
  | none => acc

/-- The `i > 0` part of one loop iteration of `computeTrackStats`: distance
accumulation, and the gain/loss update when both the current and previous
point carry an elevation (`diff > 0` adds to the gain, otherwise
`Math.abs(diff)` adds to the loss), followed by the min/max update. -/
noncomputable def statsStep (prev p : Waypoint) (acc : StatsAcc) : StatsAcc :=
  let acc1 := { acc with distance := acc.distance + haversineDistance prev p }
  let acc2 :=
    match p.ele, prev.ele with
    | some ce, some pe =>
      let diff := JSNum.sub ce pe
      if JSNum.gtb diff (JSNum.fin 0) then { acc1 with elevGain := JSNum.add acc1.elevGain diff }
      else { acc1 with elevLoss := JSNum.add acc1.elevLoss diff.abs }
    | _, _ => acc1
  statsUpdateMinMax acc2 p

/-- The `computeTrackStats` loop over the points after the first, carrying
the previous point. -/
noncomputable def statsLoop : Waypoint → StatsAcc → List Waypoint → StatsAcc
  | _, acc, [] => acc
  | prev, acc, p :: rest => statsLoop p (statsStep prev p acc) rest

/-- `computeTrackStats` of `trackStats.ts`.  `duration` is computed exactly
when both `pts[0]?.time` and `pts[pts.length-1]?.time` are present (a `Date`
object is always truthy); `avgSpeed` only when `duration` is additionally a
truthy number greater than zero. -/
noncomputable def computeTrackStats (track : TrackSegment) : TrackStats :=
  let pts := track.points
  let acc0 : StatsAcc :=
    { distance := 0, elevGain := JSNum.fin 0, elevLoss := JSNum.fin 0,
      maxEle := none, minEle := none }
  let acc :=
    match pts with
    | [] => acc0
    | p0 :: rest => statsLoop p0 (statsUpdateMinMax acc0 p0) rest
  let first := pts.head?.bind Waypoint.time
  let last := pts.getLast?.bind Waypoint.time
  let duration : Option JSNum :=
    match first, last with
    | some f, some l => some (JSNum.div (JSNum.sub l.getTime f.getTime) (JSNum.fin 1000))
    | _, _ => none
  let avgSpeed : Option ℝ :=
    match duration with
    | some q =>
      if q.truthy && JSNum.gtb q (JSNum.fin 0) then some (acc.distance / q.toReal) else none
    | none => none
  { distance := acc.distance, elevGain := acc.elevGain, elevLoss := acc.elevLoss,
    duration := duration, avgSpeed := avgSpeed, maxEle := acc.maxEle, minEle := acc.minEle }

/-- `ElevationPoint` of `trackStats.ts`: cumulative distance (km) and
elevation (m). -/
structure ElevationPoint where
  distance : ℝ
  elevation : JSNum

/-- The profile loop of `computeElevationProfile` over the points after the
first: accumulate distance, and emit an entry for every elevation-bearing
point. -/
noncomputable def profileAux : Waypoint → ℝ → List Waypoint → List ElevationPoint
  | _, _, [] => []
  | prev, cum, p :: rest =>
    let cum2 := cum + haversineDistance prev p
    (match p.ele with
     | some e => [⟨cum2 / 1000, e⟩]
     | none => []) ++ profileAux p cum2 rest

/-- The full (pre-downsampling) elevation profile `result` built by the loop
of `computeElevationProfile`. -/
noncomputable def elevationProfileRaw (track : TrackSegment) : List ElevationPoint :=
  match track.points with
  | [] => []
  | p0 :: rest =>
    (match p0.ele with
     | some e => [⟨(0 : ℝ) / 1000, e⟩]
     | none => []) ++ profileAux p0 0 rest

/-- The middle-sampling loop of the downsampler
(`for (let i = step; i < result.length - 1; i += step)`); the `0 < step`
conjunct only makes termination explicit — the caller always passes
`step ≥ 3`. -/
noncomputable def sampleMid (r : List ElevationPoint) (step i : ℕ) : List ElevationPoint :=
  if h : 0 < step ∧ i < r.length - 1 then
    r.getD i ⟨0, JSNum.fin 0⟩ :: sampleMid r step (i + step)
  else []
termination_by r.length - i
decreasing_by omega

/-- The `result.length > 5000` branch of `computeElevationProfile`:
`step = Math.ceil(result.length / 2000)`, keep the first entry, every
`step`-th middle entry, and the last entry. -/
noncomputable def downsampleProfile (r : List ElevationPoint) : List ElevationPoint :=
  let step := (r.length + 1999) / 2000
  r.getD 0 ⟨0, JSNum.fin 0⟩ :: (sampleMid r step step ++ [r.getD (r.length - 1) ⟨0, JSNum.fin 0⟩])

/-- `computeElevationProfile` of `trackStats.ts`. -/
noncomputable def computeElevationProfile (track : TrackSegment) : List ElevationPoint :=
  let pts := track.points
  let hasElevation := pts.any (fun p => p.ele.isSome)
  if !hasElevation then []
  else
    let result := elevationProfileRaw track
    if result.length > 5000 then downsampleProfile result else result

/-! ## Worker pool (`workerPool.ts`)

The pool is modelled as a state machine: `parse` (the submission) appends a
fresh correlation id to the pending table, a worker response settles the
matching pending promise (or is discarded), and `terminate` clears the
worker list and rejects everything still pending.  `settled` is the
append-only record of promise settlements, standing for the resolutions and
rejections callers observe. -/

/-- The settlement of one submission's promise. -/
inductive Outcome where
  | resolved (data : GPXData)
  | rejected (message : String)
deriving DecidableEq

/-- The observable state of a `WorkerPool`. -/
structure PoolState where
  workerCount : ℕ
  nextWorker : ℕ
  nextId : ℕ
  pending : List String
  settled : List (String × Outcome)
deriving DecidableEq

/-- A message from a worker (`WorkerResponse` of `parseWorker.ts`). -/
inductive WorkerResponse where
  | result (id : String) (data : SerializedGPXData)
  | error (id : String) (message : String)

namespace WorkerPool

/-- The constructor: `size` workers, no pending requests. -/
def init (size : ℕ) : PoolState :=
  { workerCount := size, nextWorker := 0, nextId := 0, pending := [], settled := [] }

/-- `parse(content)`: assign id `String(++this.nextId)`, advance the
round-robin counter, store the pending handle, post the request.  Returns
the new state and the correlation id of the returned promise. -/
def parse (st : PoolState) : PoolState × String :=
  let id := toString (st.nextId + 1)
  ({ st with nextId := st.nextId + 1, nextWorker := st.nextWorker + 1,
             pending := st.pending ++ [id] }, id)

/-- The `onmessage` handler: a response whose id has no pending handle is
discarded; otherwise the handle is removed and the promise settled
(deserializing on success). -/
def onMessage (st : PoolState) (msg : WorkerResponse) : PoolState :=
  let id := match msg with | .result i _ => i | .error i _ => i
  if st.pending.contains id then
    { st with
        pending := st.pending.erase id,
        settled := st.settled ++
          [(id, match msg with
                | .result _ data => Outcome.resolved (deserializeGPXData data)
                | .error _ m => Outcome.rejected m)] }
  else st

/-- `terminate()`: terminate all workers, reject every pending handle with
`new Error('Pool terminated')`, clear the table. -/
def terminate (st : PoolState) : PoolState :=
  { st with
      workerCount := 0,
      settled := st.settled ++ st.pending.map (fun i => (i, Outcome.rejected "Pool terminated")),
      pending := [] }

end WorkerPool

/-! ## Calendar correctness -/

set_option maxHeartbeats 4000000 in
set_option maxRecDepth 10000 in
/-- Boundary check: `yoeOfDoe` maps the first and last day of each of the
400 years of an era to that year. -/
theorem yoe_boundary : ∀ y < 400, yoeOfDoe (yodOfYoe y) = y ∧ yoeOfDoe (endOfYoe y) = y := by
  decide

theorem yoeOfDoe_mono {a b : ℕ} (hab : a ≤ b) (hb : b ≤ 146096) : yoeOfDoe a ≤ yoeOfDoe b :=
  Nat.div_le_div_right (by omega)

theorem yoeOfDoe_le {doe : ℕ} (h : doe ≤ 146096) : yoeOfDoe doe ≤ 399 := by
  unfold yoeOfDoe; omega

theorem endOfYoe_le {y : ℕ} (h : y ≤ 399) : endOfYoe y ≤ 146096 := by
  unfold endOfYoe yodOfYoe
  split <;> omega

/-- A day sandwiched in year `y`'s range has year-of-era `y`. -/
theorem yoe_locate {y doe : ℕ} (hy : y ≤ 399) (h1 : yodOfYoe y ≤ doe)
    (h2 : doe ≤ endOfYoe y) : yoeOfDoe doe = y := by
  have hbnd : endOfYoe y ≤ 146096 := endOfYoe_le hy
  have m1 := yoeOfDoe_mono h1 (le_trans h2 hbnd)
  have m2 := yoeOfDoe_mono h2 hbnd
  have b1 := (yoe_boundary y (by omega)).1
  have b2 := (yoe_boundary y (by omega)).2
  omega

/-- Within an era, `yoeOfDoe` finds the year containing a day: the year
start is at or before the day, at most 365 days before it. -/
theorem doy_bounds {doe : ℕ} (h : doe ≤ 146096) :
    yodOfYoe (yoeOfDoe doe) ≤ doe ∧ doe ≤ yodOfYoe (yoeOfDoe doe) + 365 := by
  have hy0 : yodOfYoe 0 ≤ doe := by simp [yodOfYoe]
  have hspec := Nat.findGreatest_spec (P := fun y => yodOfYoe y ≤ doe)
    (m := 0) (n := 399) (Nat.zero_le 399) hy0
  have hysle : Nat.findGreatest (fun y => yodOfYoe y ≤ doe) 399 ≤ 399 :=
    Nat.findGreatest_le 399
  have hub : doe ≤ endOfYoe (Nat.findGreatest (fun y => yodOfYoe y ≤ doe) 399) := by
    rcases eq_or_lt_of_le hysle with he | hlt
    · rw [he]
      unfold endOfYoe
      simp
      omega
    · have hnot := Nat.findGreatest_is_greatest (P := fun y => yodOfYoe y ≤ doe)
        (n := 399) (k := Nat.findGreatest (fun y => yodOfYoe y ≤ doe) 399 + 1)
        (by omega) (by omega)
      simp only [not_le] at hnot
      unfold endOfYoe
      have hne : Nat.findGreatest (fun y => yodOfYoe y ≤ doe) 399 ≠ 399 := by omega
      simp only [hne, if_false]
      omega
  have hloc := yoe_locate hysle hspec hub
  have hend : endOfYoe (Nat.findGreatest (fun y => yodOfYoe y ≤ doe) 399) ≤
      yodOfYoe (Nat.findGreatest (fun y => yodOfYoe y ≤ doe) 399) + 365 := by
    unfold endOfYoe
    split
    · rename_i h399; rw [h399]; norm_num [yodOfYoe]
    · unfold yodOfYoe; omega
  rw [hloc]
  exact ⟨hspec, by omega⟩

/-- The month/day split of `civilFromDays` and its inverse in
`daysFromCivil`, with field bounds. -/
theorem civil_core {doe yoe doy mp d m : ℕ} (h : doe ≤ 146096)
    (hyoe : yoe = yoeOfDoe doe) (hdoy : doy = doe - yodOfYoe yoe)
    (hmp : mp = (5 * doy + 2) / 153)
    (hd : d = doy - (153 * mp + 2) / 5 + 1)
    (hm : m = if mp < 10 then mp + 3 else mp - 9) :
    (if 3 ≤ m then m - 3 else m + 9) = mp ∧
    (153 * mp + 2) / 5 + d - 1 = doy ∧
    yodOfYoe yoe + doy = doe ∧
    yoe ≤ 399 ∧ 1 ≤ m ∧ m ≤ 12 ∧ 1 ≤ d ∧ d ≤ 31 ∧ (m ≤ 2 ↔ 10 ≤ mp) ∧ doy ≤ 365 := by
  have hb := doy_bounds h
  have hy := yoeOfDoe_le h
  rw [hyoe] at hdoy
  subst hdoy hmp hd hm
  unfold yodOfYoe at hb ⊢
  subst hyoe
  split_ifs <;> omega

/-- Evaluation of `daysFromCivil` on the shape of fields `civilFromDays`
produces. -/
theorem daysFromCivil_eval (era : ℤ) (yoe mp doy m d : ℕ)
    (hyoe399 : yoe ≤ 399)
    (hmrec : (if 3 ≤ m then m - 3 else m + 9) = mp)
    (hdrec : (153 * mp + 2) / 5 + d - 1 = doy) :
    daysFromCivil (era * 400 + yoe + (if m ≤ 2 then 1 else 0)) m d =
      era * 146097 + (yodOfYoe yoe + doy : ℕ) - 719468 := by
  simp only [daysFromCivil]
  have hya : (era * 400 + (yoe : ℤ) + (if m ≤ 2 then 1 else 0)) - (if m ≤ 2 then 1 else 0) =
      era * 400 + yoe := by ring
  rw [hya]
  have hera : (era * 400 + (yoe : ℤ)) / 400 = era := by omega
  rw [hera]
  have hyoe : ((era * 400 + (yoe : ℤ)) - era * 400).toNat = yoe := by omega
  rw [hyoe, hmrec, hdrec]

set_option maxHeartbeats 1000000 in
/-- The civil-date conversion pair is inverse: reading back the
`(year, month, day)` triple of `civilFromDays` yields the original day
number. -/
theorem daysFromCivil_civilFromDays (z : ℤ) :
    daysFromCivil (civilFromDays z).1 (civilFromDays z).2.1 (civilFromDays z).2.2 = z := by
  have h0 : (0:ℤ) ≤ (z + 719468) % 146097 := Int.emod_nonneg _ (by norm_num)
  have h1 : (z + 719468) % 146097 < 146097 := Int.emod_lt_of_pos _ (by norm_num)
  have h2 := Int.ediv_add_emod (z + 719468) 146097
  have hdoe96 : ((z + 719468) % 146097).toNat ≤ 146096 := by omega
  have hcore := civil_core hdoe96 rfl rfl rfl rfl rfl
  simp only [civilFromDays]
  rw [daysFromCivil_eval _ _ _ _ _ _ hcore.2.2.2.1 hcore.1 hcore.2.1]
  have h3 := hcore.2.2.1
  omega

/-! ## Digit printing and reading -/

theorem digitChar_spec (d : ℕ) (hd : d < 10) :
    (Char.ofNat (48 + d)).isDigit = true ∧ digitVal (Char.ofNat (48 + d)) = d ∧
      Char.ofNat (48 + d) ≠ '+' ∧ Char.ofNat (48 + d) ≠ '-' := by
  interval_cases d <;> refine ⟨by decide, by decide, by decide, by decide⟩

theorem padChars_lt (k n : ℕ) (hn : n < 10 ^ (k + 1)) : n / 10 ^ k < 10 := by
  have h10 : 0 < 10 ^ k := pow_pos (by norm_num) k
  rw [Nat.div_lt_iff_lt_mul h10]
  calc n < 10 ^ (k + 1) := hn
    _ = 10 * 10 ^ k := by rw [pow_succ]; ring

theorem readDigits_padChars (k : ℕ) :
    ∀ n acc : ℕ, n < 10 ^ k → ∀ cs : List Char,
      readDigits k acc (padChars k n ++ cs) = some (acc * 10 ^ k + n, cs) := by
  induction k with
  | zero =>
    intro n acc hn cs
    have hn0 : n = 0 := by omega
    subst hn0
    simp [padChars, readDigits]
  | succ k ih =>
    intro n acc hn cs
    have hd : n / 10 ^ k < 10 := padChars_lt k n hn
    have hspec := digitChar_spec (n / 10 ^ k) hd
    have hmod : n / 10 ^ k % 10 = n / 10 ^ k := Nat.mod_eq_of_lt hd
    simp only [padChars, List.cons_append, readDigits, hmod, hspec.1, if_true, hspec.2.1,
      List.append_eq]
    have h10 : 0 < 10 ^ k := pow_pos (by norm_num) k
    rw [ih (n % 10 ^ k) (acc * 10 + n / 10 ^ k) (Nat.mod_lt n h10) cs]
    congr 1
    congr 1
    calc (acc * 10 + n / 10 ^ k) * 10 ^ k + n % 10 ^ k
        = acc * (10 ^ k * 10) + (10 ^ k * (n / 10 ^ k) + n % 10 ^ k) := by ring
      _ = acc * 10 ^ (k + 1) + n := by rw [Nat.div_add_mod, pow_succ]

theorem readSep_correct (c : Char) (k n : ℕ) (hn : n < 10 ^ k) (rest : List Char) :
    readSep c k (c :: (padChars k n ++ rest)) = some (n, rest) := by
  simp [readSep, expectChar, readDigits_padChars k n 0 hn rest]

/-- The fields `civilFromDays` produces for a day in the ECMAScript range:
they satisfy the calendar bounds and read back to the same day. -/
theorem civilFromDays_spec (z : ℤ) (hz : z.natAbs ≤ 100000000) :
    ∃ y m d, civilFromDays z = (y, m, d) ∧ daysFromCivil y m d = z ∧
      y.natAbs ≤ 999999 ∧ 1 ≤ m ∧ m ≤ 12 ∧ 1 ≤ d ∧ d ≤ 31 := by
  refine ⟨(civilFromDays z).1, (civilFromDays z).2.1, (civilFromDays z).2.2, rfl,
    daysFromCivil_civilFromDays z, ?_⟩
  have h0 : (0:ℤ) ≤ (z + 719468) % 146097 := Int.emod_nonneg _ (by norm_num)
  have h1 : (z + 719468) % 146097 < 146097 := Int.emod_lt_of_pos _ (by norm_num)
  have h2 := Int.ediv_add_emod (z + 719468) 146097
  have hdoe96 : ((z + 719468) % 146097).toNat ≤ 146096 := by omega
  have hcore := civil_core hdoe96 rfl rfl rfl rfl rfl
  rcases hq : civilFromDays z with ⟨y, m, d⟩
  simp only [civilFromDays, Prod.mk.injEq] at hq
  obtain ⟨hy, hm, hd⟩ := hq
  refine ⟨?_, ?_, ?_, ?_, ?_⟩
  · have h4 := hcore.2.2.2.1
    rw [← hy]
    split_ifs <;> omega
  · rw [← hm]; exact hcore.2.2.2.2.1
  · rw [← hm]; exact hcore.2.2.2.2.2.1
  · rw [← hd]; exact hcore.2.2.2.2.2.2.1
  · rw [← hd]; exact hcore.2.2.2.2.2.2.2.1

theorem parseISOYear_yearChars (y : ℤ) (hy : y.natAbs ≤ 999999) (rest : List Char) :
    parseISOYear (yearChars y ++ rest) = some (y, rest) := by
  unfold yearChars
  by_cases h1 : 0 ≤ y ∧ y ≤ 9999
  · rw [if_pos h1]
    have hlt : y.toNat < 10 ^ 4 := by omega
    have hd : y.toNat / 10 ^ 3 < 10 := padChars_lt 3 y.toNat hlt
    have hspec := digitChar_spec (y.toNat / 10 ^ 3) hd
    have hmod : y.toNat / 10 ^ 3 % 10 = y.toNat / 10 ^ 3 := Nat.mod_eq_of_lt hd
    have hpad4 : padChars 4 y.toNat =
        Char.ofNat (48 + y.toNat / 10 ^ 3 % 10) :: padChars 3 (y.toNat % 10 ^ 3) := rfl
    have hrd := readDigits_padChars 4 y.toNat 0 hlt rest
    rw [hpad4, List.cons_append, hmod] at hrd ⊢
    simp only [parseISOYear]
    rw [if_neg hspec.2.2.1, if_neg hspec.2.2.2, hrd]
    simp only [Option.map, Option.some.injEq, Prod.mk.injEq, eq_self_iff_true, and_true]
    omega
  · rw [if_neg h1]
    by_cases h2 : y < 0
    · rw [if_pos h2]
      have hlt : (-y).toNat < 10 ^ 6 := by omega
      have hrd := readDigits_padChars 6 (-y).toNat 0 hlt rest
      rw [List.cons_append]
      simp only [parseISOYear]
      rw [if_true, hrd]
      have hval : (0 * 10 ^ 6 + (-y).toNat : ℕ) = (-y).toNat := by omega
      rw [hval]
      show some (-(((-y).toNat : ℕ) : ℤ), rest) = some (y, rest)
      rw [Int.toNat_of_nonneg (a := -y) (by omega), neg_neg]
    · rw [if_neg h2]
      have hlt : y.toNat < 10 ^ 6 := by omega
      have hrd := readDigits_padChars 6 y.toNat 0 hlt rest
      rw [List.cons_append]
      simp only [parseISOYear]
      rw [if_true, hrd]
      simp only [Option.map, Option.some.injEq, Prod.mk.injEq, eq_self_iff_true, and_true]
      omega

set_option maxHeartbeats 1000000 in
/-- The ISO-8601 codec round trip: parsing back `toISOString`'s characters
recovers the instant exactly, for every instant in the ECMAScript range. -/
theorem parseISOChars_isoChars {t : ℤ} (ht : t.natAbs ≤ 8640000000000000) :
    parseISOChars (isoChars t) = some t := by
  have hm0 : (0:ℤ) ≤ t % 86400000 := Int.emod_nonneg _ (by norm_num)
  have hm1 : t % 86400000 < 86400000 := Int.emod_lt_of_pos _ (by norm_num)
  have hdm := Int.ediv_add_emod t 86400000
  have hdaysBound : (t / 86400000).natAbs ≤ 100000000 := by omega
  obtain ⟨y, m, d, hcf, hdf, hyb, hm1', hm12, hd1, hd31⟩ :=
    civilFromDays_spec (t / 86400000) hdaysBound
  have hh : (t % 86400000).toNat / 3600000 < 10 ^ 2 := by omega
  have hmi : (t % 86400000).toNat % 3600000 / 60000 < 10 ^ 2 := by omega
  have hs : (t % 86400000).toNat % 60000 / 1000 < 10 ^ 2 := by omega
  have hms : (t % 86400000).toNat % 1000 < 10 ^ 3 := by omega
  simp only [isoChars]
  rw [hcf]
  simp only [List.cons_append, List.append_assoc]
  simp only [parseISOChars, parseISODateTail, parseISOTimeTail, parseISOSecondsTail,
    parseISOYear_yearChars y hyb,
    readSep_correct '-' 2 m (by omega), readSep_correct '-' 2 d (by omega),
    readSep_correct 'T' 2 _ hh, readSep_correct ':' 2 _ hmi,
    readSep_correct ':' 2 _ hs, readSep_correct '.' 3 _ hms,
    Option.bind, eq_self_iff_true, if_true]
  simp only [assembleISO]
  have hval : ((t / 86400000) * 86400000 +
      ((t % 86400000).toNat / 3600000 * 3600000 + (t % 86400000).toNat % 3600000 / 60000 * 60000 +
        (t % 86400000).toNat % 60000 / 1000 * 1000 + (t % 86400000).toNat % 1000 : ℕ) : ℤ) = t := by
    omega
  rw [hdf, hval]
  have hmax : maxTimeMs.toNat = 8640000000000000 := rfl
  rw [hmax, if_pos ht]

/-! ## Geometry kernel properties -/

theorem jsAtan2_nonneg {y x : ℝ} (hy : 0 ≤ y) (hx : 0 ≤ x) : 0 ≤ jsAtan2 y x := by
  unfold jsAtan2
  by_cases h1 : 0 < x
  · rw [if_pos h1]
    have hmono := Real.arctan_strictMono.monotone (div_nonneg hy (le_of_lt h1))
    rwa [Real.arctan_zero] at hmono
  · rw [if_neg h1, if_neg (by linarith : ¬ x < 0)]
    by_cases h3 : 0 < y
    · rw [if_pos h3]
      linarith [Real.pi_pos]
    · rw [if_neg h3, if_neg (by linarith : ¬ y < 0)]

/-- The haversine intermediate `a` is nonnegative for arbitrary real
latitudes (the key case being a negative cosine product). -/
theorem haversine_arg_nonneg (u v w : ℝ) :
    0 ≤ Real.sin ((v - u) / 2) ^ 2 + Real.cos u * Real.cos v * Real.sin w ^ 2 := by
  rcases le_or_lt 0 (Real.cos u * Real.cos v) with h | h
  · have h1 := sq_nonneg (Real.sin ((v - u) / 2))
    have h2 := sq_nonneg (Real.sin w)
    nlinarith
  · have h1 : Real.sin w ^ 2 ≤ 1 := Real.sin_sq_le_one w
    have h2 : Real.sin ((v - u) / 2) ^ 2 = 1 / 2 - Real.cos (v - u) / 2 := by
      have := Real.sin_sq_eq_half_sub ((v - u) / 2)
      rwa [show 2 * ((v - u) / 2) = v - u from by ring] at this
    have h3 : Real.cos u * Real.cos v = (Real.cos (v - u) + Real.cos (u + v)) / 2 := by
      have ha := Real.cos_add u v
      have hb := Real.cos_sub u v
      have hc : Real.cos (v - u) = Real.cos (u - v) := by
        rw [show v - u = -(u - v) from by ring, Real.cos_neg]
      rw [hc]
      linarith
    have h4 : -1 ≤ Real.cos (u + v) := Real.neg_one_le_cos (u + v)
    have h5 : Real.cos u * Real.cos v * 1 ≤ Real.cos u * Real.cos v * Real.sin w ^ 2 :=
      mul_le_mul_of_nonpos_left h1 (le_of_lt h)
    nlinarith

/-- The haversine intermediate `a` is at most 1 for arbitrary real
latitudes, so `Math.sqrt(1 - a)` never sees a negative argument in exact
arithmetic. -/
theorem haversine_arg_le_one (u v w : ℝ) :
    Real.sin ((v - u) / 2) ^ 2 + Real.cos u * Real.cos v * Real.sin w ^ 2 ≤ 1 := by
  rcases le_or_lt (Real.cos u * Real.cos v) 0 with h | h
  · have h1 := Real.sin_sq_le_one ((v - u) / 2)
    have h2 := sq_nonneg (Real.sin w)
    nlinarith
  · have h1 : Real.sin w ^ 2 ≤ 1 := Real.sin_sq_le_one w
    have h2 : Real.sin ((v - u) / 2) ^ 2 = 1 / 2 - Real.cos (v - u) / 2 := by
      have := Real.sin_sq_eq_half_sub ((v - u) / 2)
      rwa [show 2 * ((v - u) / 2) = v - u from by ring] at this
    have h3 : Real.cos u * Real.cos v = (Real.cos (v - u) + Real.cos (u + v)) / 2 := by
      have ha := Real.cos_add u v
      have hb := Real.cos_sub u v
      have hc : Real.cos (v - u) = Real.cos (u - v) := by
        rw [show v - u = -(u - v) from by ring, Real.cos_neg]
      rw [hc]
      linarith
    have h4 : Real.cos (u + v) ≤ 1 := Real.cos_le_one (u + v)
    have h5 : Real.cos u * Real.cos v * Real.sin w ^ 2 ≤ Real.cos u * Real.cos v * 1 :=
      mul_le_mul_of_nonneg_left h1 (le_of_lt h)
    nlinarith

theorem haversineDistance_nonneg (p1 p2 : Waypoint) : 0 ≤ haversineDistance p1 p2 := by
  simp only [haversineDistance]
  exact mul_nonneg (by norm_num)
    (jsAtan2_nonneg (Real.sqrt_nonneg _) (Real.sqrt_nonneg _))

theorem sin_sq_swap (x y c d : ℝ) :
    Real.sin ((x - y) * c / d / 2) ^ 2 = Real.sin ((y - x) * c / d / 2) ^ 2 := by
  rw [show (x - y) * c / d / 2 = -((y - x) * c / d / 2) from by ring, Real.sin_neg, neg_sq]

theorem haversineDistance_symm (p1 p2 : Waypoint) :
    haversineDistance p1 p2 = haversineDistance p2 p1 := by
  simp only [haversineDistance]
  rw [sin_sq_swap (p2.lat.toReal) (p1.lat.toReal) Real.pi 180,
    sin_sq_swap (p2.lng.toReal) (p1.lng.toReal) Real.pi 180,
    mul_comm (Real.cos (p1.lat.toReal * Real.pi / 180)) (Real.cos (p2.lat.toReal * Real.pi / 180))]

theorem haversineDistance_self (p : Waypoint) : haversineDistance p p = 0 := by
  simp only [haversineDistance]
  simp only [sub_self, zero_mul, zero_div, Real.sin_zero, ne_eq, OfNat.ofNat_ne_zero,
    not_false_eq_true, zero_pow, mul_zero, add_zero, zero_add, Real.sqrt_zero, sub_zero,
    Real.sqrt_one]
  unfold jsAtan2
  rw [if_pos (by norm_num : (0:ℝ) < 1)]
  rw [zero_div, Real.arctan_zero, mul_zero]

/-! ## Statistics engine properties -/

theorem JSNum.sub_fin (a b : ℚ) : JSNum.sub (JSNum.fin a) (JSNum.fin b) = JSNum.fin (a - b) := by
  simp [JSNum.sub, JSNum.add, JSNum.neg, sub_eq_add_neg]

theorem JSNum.toReal_fin (q : ℚ) : (JSNum.fin q).toReal = (q : ℝ) := rfl

theorem statsUpdateMinMax_elevGain (acc : StatsAcc) (p : Waypoint) :
    (statsUpdateMinMax acc p).elevGain = acc.elevGain := by
  cases hpe : p.ele <;> simp [statsUpdateMinMax, hpe]

theorem statsUpdateMinMax_elevLoss (acc : StatsAcc) (p : Waypoint) :
    (statsUpdateMinMax acc p).elevLoss = acc.elevLoss := by
  cases hpe : p.ele <;> simp [statsUpdateMinMax, hpe]

/-- Telescoping of the gain/loss accumulation: over a run of points whose
elevations are all finite, `gain - loss` advances by exactly the elevation
difference between the last and the first point. -/
theorem statsLoop_telescope :
    ∀ (rest : List Waypoint) (prev : Waypoint) (acc : StatsAcc) (g l pe : ℚ),
      acc.elevGain = JSNum.fin g → acc.elevLoss = JSNum.fin l →
      prev.ele = some (JSNum.fin pe) →
      (∀ p ∈ rest, ∃ q : ℚ, p.ele = some (JSNum.fin q)) →
      ∃ g' l' le : ℚ,
        (statsLoop prev acc rest).elevGain = JSNum.fin g' ∧
        (statsLoop prev acc rest).elevLoss = JSNum.fin l' ∧
        ((prev :: rest).getLast (by simp)).ele = some (JSNum.fin le) ∧
        g' - l' = (g - l) + (le - pe) := by
  intro rest
  induction rest with
  | nil =>
    intro prev acc g l pe hg hl hpe _
    refine ⟨g, l, pe, ?_, ?_, ?_, by ring⟩
    · simpa [statsLoop] using hg
    · simpa [statsLoop] using hl
    · simpa [List.getLast] using hpe
  | cons p rest ih =>
    intro prev acc g l pe hg hl hpe hall
    obtain ⟨ce, hce⟩ := hall p (by simp)
    have hdiff : JSNum.sub (JSNum.fin ce) (JSNum.fin pe) = JSNum.fin (ce - pe) :=
      JSNum.sub_fin ce pe
    have hstep : ∃ g2 l2 : ℚ, (statsStep prev p acc).elevGain = JSNum.fin g2 ∧
        (statsStep prev p acc).elevLoss = JSNum.fin l2 ∧ g2 - l2 = (g - l) + (ce - pe) := by
      simp only [statsStep, hce, hpe, hdiff]
      by_cases hgt : JSNum.gtb (JSNum.fin (ce - pe)) (JSNum.fin 0) = true
      · have hpos : 0 < ce - pe := by
          simpa [JSNum.gtb, JSNum.ltb] using hgt
        refine ⟨g + (ce - pe), l, ?_, ?_, by ring⟩
        · rw [statsUpdateMinMax_elevGain]
          simp [hgt, hg, JSNum.add]
        · rw [statsUpdateMinMax_elevLoss]
          simp [hgt, hl]
      · have hnonpos : ce - pe ≤ 0 := by
          simp only [JSNum.gtb, JSNum.ltb] at hgt
          simpa using hgt
        refine ⟨g, l + (pe - ce), ?_, ?_, by ring⟩
        · rw [statsUpdateMinMax_elevGain]
          simp [hgt, hg]
        · rw [statsUpdateMinMax_elevLoss]
          simp only [Bool.not_eq_true] at hgt
          simp [hgt, hl, JSNum.abs, JSNum.add, abs_of_nonpos hnonpos]
    obtain ⟨g2, l2, hg2, hl2, hrel⟩ := hstep
    obtain ⟨g', l', le, hg', hl', hle, hrel'⟩ :=
      ih p (statsStep prev p acc) g2 l2 ce hg2 hl2 hce
        (fun q hq => hall q (by simp [hq]))
    refine ⟨g', l', le, ?_, ?_, ?_, ?_⟩
    · simpa [statsLoop] using hg'
    · simpa [statsLoop] using hl'
    · rw [List.getLast_cons (by simp)]
      exact hle
    · rw [hrel', hrel]
      ring

/-- The gain/loss balance of `computeTrackStats` on an all-finite-elevation
segment telescopes to last minus first elevation. -/
theorem computeTrackStats_gain_sub_loss (seg : TrackSegment) (p0 : Waypoint)
    (h0 : seg.points.head? = some p0)
    (hall : ∀ p ∈ seg.points, ∃ q : ℚ, p.ele = some (JSNum.fin q)) :
    JSNum.sub (computeTrackStats seg).elevGain (computeTrackStats seg).elevLoss =
      JSNum.sub ((seg.points.getLast?.bind Waypoint.ele).getD JSNum.nan)
        ((seg.points.head?.bind Waypoint.ele).getD JSNum.nan) := by
  rcases hpts : seg.points with _ | ⟨q0, rest⟩
  · rw [hpts] at h0; simp at h0
  · rw [hpts] at hall
    obtain ⟨pe, hpe⟩ := hall q0 (by simp)
    obtain ⟨g', l', le, hg', hl', hle, hrel⟩ :=
      statsLoop_telescope rest q0
        (statsUpdateMinMax ⟨0, JSNum.fin 0, JSNum.fin 0, none, none⟩ q0)
        0 0 pe (by rw [statsUpdateMinMax_elevGain]) (by rw [statsUpdateMinMax_elevLoss]) hpe
        (fun p hp => hall p (by simp [hp]))
    have hgain : (computeTrackStats seg).elevGain =
        (statsLoop q0 (statsUpdateMinMax ⟨0, JSNum.fin 0, JSNum.fin 0, none, none⟩ q0)
          rest).elevGain := by
      simp [computeTrackStats, hpts]
    have hloss : (computeTrackStats seg).elevLoss =
        (statsLoop q0 (statsUpdateMinMax ⟨0, JSNum.fin 0, JSNum.fin 0, none, none⟩ q0)
          rest).elevLoss := by
      simp [computeTrackStats, hpts]
    rw [hgain, hloss, hg', hl']
    rw [List.getLast?_eq_getLast (q0 :: rest) (by simp)]
    simp only [List.head?_cons, Option.some_bind, hle, hpe, Option.getD_some]
    rw [JSNum.sub_fin]
    congr 1
    rw [hrel]
    ring

/-- Characterization of `duration` and `avgSpeed` in `computeTrackStats`. -/
theorem computeTrackStats_duration_avgSpeed (seg : TrackSegment) :
    ((computeTrackStats seg).duration = none ↔
      (seg.points.head?.bind Waypoint.time = none ∨
        seg.points.getLast?.bind Waypoint.time = none)) ∧
    ((computeTrackStats seg).duration = none → (computeTrackStats seg).avgSpeed = none) ∧
    (∀ q : ℚ, (computeTrackStats seg).duration = some (JSNum.fin q) →
      ((computeTrackStats seg).avgSpeed = none ↔ q ≤ 0) ∧
      (0 < q → (computeTrackStats seg).avgSpeed =
        some ((computeTrackStats seg).distance / (q : ℝ)))) := by
  rcases hf : seg.points.head?.bind Waypoint.time with _ | f
  · refine ⟨by simp [computeTrackStats, hf], by simp [computeTrackStats, hf], ?_⟩
    intro q hq
    simp [computeTrackStats, hf] at hq
  · rcases hl : seg.points.getLast?.bind Waypoint.time with _ | l
    · refine ⟨by simp [computeTrackStats, hf, hl], by simp [computeTrackStats, hf, hl], ?_⟩
      intro q hq
      simp [computeTrackStats, hf, hl] at hq
    · refine ⟨by simp [computeTrackStats, hf, hl], by simp [computeTrackStats, hf, hl], ?_⟩
      intro q hq
      have hq' : JSNum.div (JSNum.sub l.getTime f.getTime) (JSNum.fin 1000) = JSNum.fin q := by
        simpa [computeTrackStats, hf, hl] using hq
      constructor
      · by_cases hpos : 0 < q
        · have hcond : (JSNum.truthy (JSNum.fin q) && JSNum.gtb (JSNum.fin q) (JSNum.fin 0)) =
              true := by
            simp [JSNum.truthy, JSNum.gtb, JSNum.ltb, hpos, hpos.ne']
          simp [computeTrackStats, hf, hl, hq', hcond]
          linarith
        · simp only [not_lt] at hpos
          rcases eq_or_lt_of_le hpos with h0 | hneg
          · simp [computeTrackStats, hf, hl, hq', JSNum.truthy, JSNum.gtb, JSNum.ltb, ← h0]
          · simp [computeTrackStats, hf, hl, hq', JSNum.truthy, JSNum.gtb, JSNum.ltb,
              not_lt_of_lt hneg, le_of_lt hneg]
      · intro hpos
        simp [computeTrackStats, hf, hl, hq', JSNum.truthy, JSNum.gtb, JSNum.ltb, hpos,
          ne_of_gt hpos, JSNum.toReal_fin]

/-- `computeTrackStats` on the empty segment, and `computeElevationProfile`
without any elevation-bearing point. -/
theorem computeTrackStats_empty :
    computeTrackStats ⟨[]⟩ =
      ⟨0, JSNum.fin 0, JSNum.fin 0, none, none, none, none⟩ := rfl

theorem computeElevationProfile_no_ele (seg : TrackSegment)
    (h : ∀ p ∈ seg.points, p.ele = none) : computeElevationProfile seg = [] := by
  have hany : seg.points.any (fun p => p.ele.isSome) = false := by
    rw [List.any_eq_false]
    intro p hp
    simp [h p hp]
  simp [computeElevationProfile, hany]

/-! ## Elevation profile and downsampling -/

theorem profileAux_length (rest : List Waypoint) :
    ∀ (prev : Waypoint) (cum : ℝ),
      (profileAux prev cum rest).length = (rest.filter (fun p => p.ele.isSome)).length := by
  induction rest with
  | nil => intro prev cum; simp [profileAux]
  | cons p rest ih =>
    intro prev cum
    cases hpe : p.ele <;>
      simp [profileAux, hpe, List.filter_cons, ih]

theorem elevationProfileRaw_length (t : TrackSegment) :
    (elevationProfileRaw t).length = (t.points.filter (fun p => p.ele.isSome)).length := by
  rcases hpts : t.points with _ | ⟨p0, rest⟩
  · simp [elevationProfileRaw, hpts]
  · cases hpe : p0.ele <;>
      simp [elevationProfileRaw, hpts, hpe, List.filter_cons, profileAux_length]

theorem sampleMid_length (r : List ElevationPoint) (step : ℕ) (hstep : 0 < step) (i : ℕ) :
    step * (sampleMid r step i).length ≤ ((r.length - 1) - i) + (step - 1) := by
  have H : ∀ fuel j, r.length - j ≤ fuel →
      step * (sampleMid r step j).length ≤ ((r.length - 1) - j) + (step - 1) := by
    intro fuel
    induction fuel with
    | zero =>
      intro j hle
      rw [sampleMid, dif_neg (by omega)]
      simp
    | succ fuel ihf =>
      intro j hle
      rw [sampleMid]
      split_ifs with h
      · simp only [List.length_cons]
        rw [Nat.mul_add, Nat.mul_one]
        by_cases h2 : j + step < r.length - 1
        · have ih := ihf (j + step) (by omega)
          omega
        · have hmid : sampleMid r step (j + step) = [] := by
            rw [sampleMid, dif_neg (by omega)]
          rw [hmid]
          simp only [List.length_nil, Nat.mul_zero]
          omega
      · simp
  exact H r.length i (by omega)

theorem downsampleProfile_spec (r : List ElevationPoint) (h : r.length > 5000) :
    (downsampleProfile r).head? = r.head? ∧
    (downsampleProfile r).getLast? = r.getLast? ∧
    (downsampleProfile r).length ≤ 2001 := by
  rcases hr : r with _ | ⟨x, xs⟩
  · rw [hr] at h; simp at h
  · rw [← hr]
    have hne : r ≠ [] := by rw [hr]; simp
    refine ⟨?_, ?_, ?_⟩
    · simp only [downsampleProfile, List.head?_cons]
      rw [hr]
      simp [List.getD]
    · simp only [downsampleProfile]
      rw [show (r.getD 0 ⟨0, JSNum.fin 0⟩ ::
          (sampleMid r ((r.length + 1999) / 2000) ((r.length + 1999) / 2000) ++
            [r.getD (r.length - 1) ⟨0, JSNum.fin 0⟩])) =
          (r.getD 0 ⟨0, JSNum.fin 0⟩ ::
            sampleMid r ((r.length + 1999) / 2000) ((r.length + 1999) / 2000)) ++
            [r.getD (r.length - 1) ⟨0, JSNum.fin 0⟩] from by simp]
      rw [List.getLast?_concat]
      rw [List.getLast?_eq_getLast r hne]
      congr 1
      rw [List.getLast_eq_getElem r hne]
      rw [List.getD_eq_getElem r _ (by omega)]
    · have hstep : 0 < (r.length + 1999) / 2000 := by omega
      have hL := sampleMid_length r ((r.length + 1999) / 2000) hstep ((r.length + 1999) / 2000)
      have hlen2000 : r.length ≤ 2000 * ((r.length + 1999) / 2000) := by omega
      simp only [downsampleProfile, List.length_cons, List.length_append, List.length_nil]
      by_contra hgt
      push_neg at hgt
      have hL2000 : 2000 ≤ (sampleMid r ((r.length + 1999) / 2000)
          ((r.length + 1999) / 2000)).length := by omega
      have hmul := Nat.mul_le_mul_left ((r.length + 1999) / 2000) hL2000
      omega

theorem elevationProfileRaw_empty_of_no_ele (t : TrackSegment)
    (h : t.points.any (fun p => p.ele.isSome) = false) : elevationProfileRaw t = [] := by
  have hlen : (elevationProfileRaw t).length = 0 := by
    rw [elevationProfileRaw_length]
    rw [List.any_eq_false] at h
    rw [List.length_eq_zero, List.filter_eq_nil_iff]
    intro p hp
    simpa using h p hp
  exact List.length_eq_zero.mp hlen

/-- Behaviour of `computeElevationProfile` relative to the full profile:
above 5000 entries the result is the downsampled list (endpoints kept,
at most 2001 entries), otherwise the full profile unchanged. -/
theorem computeElevationProfile_spec (t : TrackSegment) :
    ((elevationProfileRaw t).length > 5000 →
      (computeElevationProfile t).head? = (elevationProfileRaw t).head? ∧
      (computeElevationProfile t).getLast? = (elevationProfileRaw t).getLast? ∧
      (computeElevationProfile t).length ≤ 2001) ∧
    ((elevationProfileRaw t).length ≤ 5000 →
      computeElevationProfile t = elevationProfileRaw t) := by
  by_cases hasE : t.points.any (fun p => p.ele.isSome)
  · constructor
    · intro hgt
      have hds := downsampleProfile_spec (elevationProfileRaw t) hgt
      simp only [computeElevationProfile, hasE, Bool.not_true, Bool.false_eq_true, if_false,
        if_pos hgt]
      exact hds
    · intro hle
      simp only [computeElevationProfile, hasE, Bool.not_true, Bool.false_eq_true, if_false]
      rw [if_neg (by omega)]
  · have hraw := elevationProfileRaw_empty_of_no_ele t (by simpa using hasE)
    constructor
    · intro hgt
      rw [hraw] at hgt
      simp at hgt
    · intro _
      simp only [computeElevationProfile, hasE]
      rw [hraw]
      simp

/-! ## Worker pool properties -/

/-- What `terminate` does to the pool: it rejects exactly the pending
submissions (in table order) with `'Pool terminated'`, leaves every earlier
settlement untouched, empties the table, clears the workers, is idempotent,
and settles nothing when nothing is pending. -/
theorem workerPool_terminate_spec (st : PoolState) :
    (WorkerPool.terminate st).settled =
      st.settled ++ st.pending.map (fun i => (i, Outcome.rejected "Pool terminated")) ∧
    (WorkerPool.terminate st).pending = [] ∧
    (WorkerPool.terminate st).workerCount = 0 ∧
    WorkerPool.terminate (WorkerPool.terminate st) = WorkerPool.terminate st ∧
    (st.pending = [] → (WorkerPool.terminate st).settled = st.settled) := by
  refine ⟨rfl, rfl, rfl, ?_, ?_⟩
  · simp [WorkerPool.terminate]
  · intro h
    simp [WorkerPool.terminate, h]

/-! ## Parser properties -/

/-- `parsePoint` drops a point exactly when `lat`/`lon` is missing or
`parseFloat` yields `NaN` on it; a parseable non-finite value such as
`Infinity` passes the `isNaN` test and is kept. -/
theorem parsePoint_eq_none_iff (el : XNode) :
    parsePoint el = none ↔
      el.getAttribute "lat" = none ∨ el.getAttribute "lon" = none ∨
      (∃ s, el.getAttribute "lat" = some s ∧ (parseFloat s).isNaN = true) ∨
      (∃ s, el.getAttribute "lon" = some s ∧ (parseFloat s).isNaN = true) := by
  rcases hlat : el.getAttribute "lat" with _ | latAttr
  · simp [parsePoint, hlat]
  · rcases hlon : el.getAttribute "lon" with _ | lonAttr
    · simp [parsePoint, hlat, hlon]
    · by_cases hnan : ((parseFloat latAttr).isNaN || (parseFloat lonAttr).isNaN) = true
      · simp only [parsePoint, hlat, hlon, hnan, if_true]
        simp only [Bool.or_eq_true] at hnan
        constructor
        · intro _
          rcases hnan with h | h
          · exact Or.inr (Or.inr (Or.inl ⟨latAttr, rfl, h⟩))
          · exact Or.inr (Or.inr (Or.inr ⟨lonAttr, rfl, h⟩))
        · intro _
          trivial
      · simp only [parsePoint, hlat, hlon, hnan, if_false]
        simp only [Bool.or_eq_true, not_or, Bool.not_eq_true] at hnan
        simp [hnan.1, hnan.2]

/-- `parseGPXFallback` succeeds on every document without a `parsererror`
element. -/
theorem parseGPXFallback_total (d : XNode) (h : (docQS d "parsererror").isSome = false) :
    ∃ t, parseGPXFallback d = Except.ok t := by
  simp only [parseGPXFallback, h, Bool.false_eq_true, if_false]
  exact ⟨_, rfl⟩

/-- The fallback parser materializes only non-empty segments. -/
theorem parseGPXFallback_segments_nonempty (d : XNode) (t : GPXData)
    (h : parseGPXFallback d = Except.ok t) : ∀ seg ∈ t.tracks, seg.points ≠ [] := by
  by_cases hpe : (docQS d "parsererror").isSome = true
  · simp [parseGPXFallback, hpe] at h
  · simp only [Bool.not_eq_true] at hpe
    simp only [parseGPXFallback, hpe, Bool.false_eq_true, if_false, Except.ok.injEq] at h
    subst h
    intro seg hseg
    simp only [List.mem_append, List.mem_flatMap, List.mem_filterMap] at hseg
    rcases hseg with ⟨trkEl, _, segEl, _, hseg⟩ | ⟨rteEl, _, hseg⟩
    · by_cases hemp : ((segEl.qsAll "trkpt").filterMap parsePoint).isEmpty
      · simp [hemp] at hseg
      · simp only [hemp, Bool.false_eq_true, if_false, Option.some.injEq] at hseg
        subst hseg
        simpa [List.isEmpty_iff] using hemp
    · by_cases hemp : ((rteEl.qsAll "rtept").filterMap parsePoint).isEmpty
      · simp [hemp] at hseg
      · simp only [hemp, Bool.false_eq_true, if_false, Option.some.injEq] at hseg
        subst hseg
        simpa [List.isEmpty_iff] using hemp

/-- A document whose point elements are all unparsable yields the
empty-but-valid track model. -/
theorem parseGPXFallback_all_unparsable (d : XNode) (t : GPXData)
    (h : parseGPXFallback d = Except.ok t)
    (h1 : ∀ trk ∈ docAll d "trk", ∀ seg ∈ trk.qsAll "trkseg",
      ∀ pt ∈ seg.qsAll "trkpt", parsePoint pt = none)
    (h2 : ∀ rte ∈ docAll d "rte", ∀ pt ∈ rte.qsAll "rtept", parsePoint pt = none)
    (h3 : ∀ wpt ∈ docAll d "wpt", parsePoint wpt = none) :
    t.tracks = [] ∧ t.waypoints = [] := by
  by_cases hpe : (docQS d "parsererror").isSome = true
  · simp [parseGPXFallback, hpe] at h
  · simp only [Bool.not_eq_true] at hpe
    simp only [parseGPXFallback, hpe, Bool.false_eq_true, if_false, Except.ok.injEq] at h
    subst h
    constructor
    · simp only [List.append_eq_nil]
      constructor
      · rw [List.flatMap_eq_nil_iff]
        intro trk htrk
        rw [List.filterMap_eq_nil_iff]
        intro seg hseg
        have : (seg.qsAll "trkpt").filterMap parsePoint = [] := by
          rw [List.filterMap_eq_nil_iff]
          exact h1 trk htrk seg hseg
        simp [this]
      · rw [List.filterMap_eq_nil_iff]
        intro rte hrte
        have : (rte.qsAll "rtept").filterMap parsePoint = [] := by
          rw [List.filterMap_eq_nil_iff]
          exact h2 rte hrte
        simp [this]
    · rw [List.filterMap_eq_nil_iff]
      exact h3

/-- `parseGPX` (with any conversion outcome) fails exactly when the parsed
document contains a `parsererror` element, and then with the message of the
fallback strategy. -/
theorem parseGPX_error_iff (conv : Except String FeatureCollection) (d : XNode) :
    (∃ e, parseGPX conv d = Except.error e) ↔ (docQS d "parsererror").isSome = true := by
  by_cases hpe : (docQS d "parsererror").isSome = true
  · simp only [hpe, iff_true]
    exact ⟨"Error parsing GPX XML", by simp [parseGPX, parseGPXFallback, hpe]⟩
  · simp only [Bool.not_eq_true] at hpe
    simp only [hpe, Bool.false_eq_true, iff_false, not_exists]
    intro e
    rcases conv with err | fc
    · obtain ⟨t, ht⟩ := parseGPXFallback_total d hpe
      simp [parseGPX, hpe, Bool.false_eq_true, ht]
    · simp [parseGPX, hpe, Bool.false_eq_true]

/-! ## Serialization round trip -/

theorem toISOString_ne_empty (t : ℤ) : toISOString t ≠ "" := by
  intro h
  have hdata : isoChars t = [] := congrArg String.data h
  simp only [isoChars, List.append_eq_nil] at hdata
  exact List.cons_ne_nil _ _ hdata.2

theorem jsNewDate_toISOString {ms : ℤ} (h : ms.natAbs ≤ 8640000000000000) :
    jsNewDate (toISOString ms) = DateVal.valid ms := by
  unfold jsNewDate toISOString
  rw [show (String.mk (isoChars ms)).data = isoChars ms from rfl]
  rw [parseISOChars_isoChars h]

theorem serializeWaypoint_roundtrip (wp : Waypoint) (h : goodWaypoint wp = true) :
    ∃ sw, serializeWaypoint wp = Except.ok sw ∧ deserializeWaypoint sw = wp := by
  obtain ⟨la, ln, el, ti, na⟩ := wp
  unfold goodWaypoint at h
  rw [Bool.and_eq_true] at h
  obtain ⟨hname, htime⟩ := h
  rcases ti with _ | tv
  · rcases na with _ | n
    · exact ⟨⟨la, ln, el, none, none⟩, by simp [serializeWaypoint], by simp [deserializeWaypoint]⟩
    · have hne : n ≠ "" := by
        intro h0
        subst h0
        simp at hname
      exact ⟨⟨la, ln, el, none, some n⟩, by simp [serializeWaypoint, hne],
        by simp [deserializeWaypoint, hne]⟩
  · rcases tv with _ | ms
    · simp at htime
    · have hms : ms.natAbs ≤ 8640000000000000 := by simpa using htime
      have hiso := jsNewDate_toISOString hms
      have hne' := toISOString_ne_empty ms
      rcases na with _ | n
      · exact ⟨⟨la, ln, el, some (toISOString ms), none⟩, by simp [serializeWaypoint],
          by simp [deserializeWaypoint, hne', hiso]⟩
      · have hne : n ≠ "" := by
          intro h0
          subst h0
          simp at hname
        exact ⟨⟨la, ln, el, some (toISOString ms), some n⟩, by simp [serializeWaypoint, hne],
          by simp [deserializeWaypoint, hne, hne', hiso]⟩

theorem mapM_serializeWaypoint_roundtrip (l : List Waypoint) (h : l.all goodWaypoint = true) :
    ∃ sl, l.mapM serializeWaypoint = Except.ok sl ∧ sl.map deserializeWaypoint = l := by
  induction l with
  | nil => exact ⟨[], rfl, rfl⟩
  | cons w l ih =>
    rw [List.all_cons, Bool.and_eq_true] at h
    obtain ⟨sw, hsw, hdw⟩ := serializeWaypoint_roundtrip w h.1
    obtain ⟨sl, hsl, hdl⟩ := ih h.2
    refine ⟨sw :: sl, ?_, ?_⟩
    · rw [List.mapM_cons, hsw, hsl]
      rfl
    · simp [hdw, hdl]

theorem mapM_serializeSegment_roundtrip (l : List TrackSegment)
    (h : l.all (fun seg => seg.points.all goodWaypoint) = true) :
    ∃ sl, l.mapM (fun t => (t.points.mapM serializeWaypoint).map SerializedSegment.mk) =
        Except.ok sl ∧
      sl.map (fun t => TrackSegment.mk (t.points.map deserializeWaypoint)) = l := by
  induction l with
  | nil => exact ⟨[], rfl, rfl⟩
  | cons seg l ih =>
    rw [List.all_cons, Bool.and_eq_true] at h
    obtain ⟨sp, hsp, hdp⟩ := mapM_serializeWaypoint_roundtrip seg.points h.1
    obtain ⟨sl, hsl, hdl⟩ := ih h.2
    refine ⟨⟨sp⟩ :: sl, ?_, ?_⟩
    · rw [List.mapM_cons, hsp, hsl]
      rfl
    · simp only [List.map_cons, hdl]
      congr 1
      rw [hdp]

theorem serializeGPXData_roundtrip (t : GPXData) (h : goodGPXData t = true) :
    ∃ s, serializeGPXData t = Except.ok s ∧ deserializeGPXData s = t := by
  obtain ⟨n, de, au, tr, wps⟩ := t
  unfold goodGPXData at h
  rw [Bool.and_eq_true] at h
  obtain ⟨str, hstr, hdtr⟩ := mapM_serializeSegment_roundtrip tr (by simpa using h.1)
  obtain ⟨sws, hsws, hdws⟩ := mapM_serializeWaypoint_roundtrip wps (by simpa using h.2)
  refine ⟨⟨n, de, au, str, sws⟩, ?_, ?_⟩
  · simp only [serializeGPXData, hstr, hsws]
  · simp only [deserializeGPXData, hdws, hdtr]

/-! ## The fallback parser only produces transport-safe models -/

theorem assembleISO_range (y : ℤ) (mo d hh mi s ms : ℕ) (t : ℤ)
    (heq : assembleISO y mo d hh mi s ms = some t) : t.natAbs ≤ 8640000000000000 := by
  simp only [assembleISO] at heq
  split_ifs at heq with hc
  · simp only [Option.some.injEq] at heq
    subst heq
    have hmx : maxTimeMs.toNat = 8640000000000000 := rfl
    omega

theorem parseISOChars_range (cs : List Char) (t : ℤ) (h : parseISOChars cs = some t) :
    t.natAbs ≤ 8640000000000000 := by
  unfold parseISOChars at h
  obtain ⟨py, _, h⟩ := Option.bind_eq_some.mp h
  unfold parseISODateTail at h
  obtain ⟨pm, _, h⟩ := Option.bind_eq_some.mp h
  obtain ⟨pd, _, h⟩ := Option.bind_eq_some.mp h
  unfold parseISOTimeTail at h
  obtain ⟨ph, _, h⟩ := Option.bind_eq_some.mp h
  obtain ⟨pmi, _, h⟩ := Option.bind_eq_some.mp h
  unfold parseISOSecondsTail at h
  obtain ⟨ps, _, h⟩ := Option.bind_eq_some.mp h
  obtain ⟨pms, _, h⟩ := Option.bind_eq_some.mp h
  split_ifs at h
  exact assembleISO_range _ _ _ _ _ _ _ _ h

theorem jsNewDate_valid_range (s : String) (ms : ℤ) (h : jsNewDate s = DateVal.valid ms) :
    ms.natAbs ≤ 8640000000000000 := by
  unfold jsNewDate at h
  rcases hp : parseISOChars s.data with _ | t
  · rw [hp] at h
    simp at h
  · rw [hp] at h
    simp only [DateVal.valid.injEq] at h
    subst h
    exact parseISOChars_range _ _ hp

/-- Every waypoint `parsePoint` produces is transport-safe: its name is
non-empty by the `textContent` truthiness test and its timestamp valid by
the `isNaN(getTime())` test. -/
theorem parsePoint_good (el : XNode) (wp : Waypoint) (h : parsePoint el = some wp) :
    goodWaypoint wp = true := by
  rcases hlat : el.getAttribute "lat" with _ | latAttr
  · simp [parsePoint, hlat] at h
  rcases hlon : el.getAttribute "lon" with _ | lonAttr
  · simp [parsePoint, hlat, hlon] at h
  by_cases hnan : ((parseFloat latAttr).isNaN || (parseFloat lonAttr).isNaN) = true
  · simp [parsePoint, hlat, hlon, hnan] at h
  · simp only [parsePoint, hlat, hlon, hnan, Bool.false_eq_true, if_false,
      Option.some.injEq] at h
    subst h
    unfold goodWaypoint
    rw [Bool.and_eq_true]
    constructor
    · rcases hqn : el.qs "name" with _ | nameEl
      · simp
      · by_cases htc : nameEl.textContent ≠ ""
        · simp [htc]
        · simp [htc]
    · rcases hqt : el.qs "time" with _ | timeEl
      · simp
      · by_cases htc : timeEl.textContent ≠ ""
        · simp only [htc, if_true]
          rcases hjd : jsNewDate timeEl.textContent with _ | ms
          · simp [hjd, DateVal.getTime, JSNum.isNaN]
          · simp only [hjd, DateVal.getTime, JSNum.isNaN, Bool.false_eq_true, if_false]
            have hrange := jsNewDate_valid_range _ _ hjd
            rw [if_pos htc]
            exact decide_eq_true hrange
        · simp [htc]

/-- Everything the fallback strategy returns is transport-safe. -/
theorem parseGPXFallback_good (d : XNode) (t : GPXData)
    (h : parseGPXFallback d = Except.ok t) : goodGPXData t = true := by
  by_cases hpe : (docQS d "parsererror").isSome = true
  · simp [parseGPXFallback, hpe] at h
  · simp only [Bool.not_eq_true] at hpe
    simp only [parseGPXFallback, hpe, Bool.false_eq_true, if_false, Except.ok.injEq] at h
    subst h
    unfold goodGPXData
    rw [Bool.and_eq_true]
    constructor
    · rw [List.all_eq_true]
      intro seg hseg
      rw [List.all_eq_true]
      intro wp hwp
      simp only [List.mem_append, List.mem_flatMap, List.mem_filterMap] at hseg
      have hpts : ∃ pts, seg = TrackSegment.mk pts ∧
          ∃ els : List XNode, pts = List.filterMap parsePoint els := by
        rcases hseg with ⟨trkEl, _, segEl, _, hseg⟩ | ⟨rteEl, _, hseg⟩
        · by_cases hemp : ((segEl.qsAll "trkpt").filterMap parsePoint).isEmpty
          · simp [hemp] at hseg
          · simp only [hemp, Bool.false_eq_true, if_false, Option.some.injEq] at hseg
            exact ⟨_, hseg.symm, _, rfl⟩
        · by_cases hemp : ((rteEl.qsAll "rtept").filterMap parsePoint).isEmpty
          · simp [hemp] at hseg
          · simp only [hemp, Bool.false_eq_true, if_false, Option.some.injEq] at hseg
            exact ⟨_, hseg.symm, _, rfl⟩
      obtain ⟨pts, rfl, els, rfl⟩ := hpts
      simp only [List.mem_filterMap] at hwp
      obtain ⟨el, _, hel⟩ := hwp
      exact parsePoint_good el wp hel
    · rw [List.all_eq_true]
      intro wp hwp
      simp only [List.mem_filterMap] at hwp
      obtain ⟨el, _, hel⟩ := hwp
      exact parsePoint_good el wp hel

/-! ## Concrete evaluations

Rational arithmetic does not reduce definitionally, so the concrete runs
of `parseFloat` and of the statistics engine are evaluated by exposing the
arithmetic shape with `rfl` and closing with `norm_num`. -/

theorem parseFloat_eval_15 : parseFloat "1.5" = JSNum.fin (3/2) := by
  have h : parseFloat "1.5" =
      JSNum.fin ((((1 : ℚ) + (5 : ℚ) / (10 : ℚ) ^ (1 : ℕ)) * (10 : ℚ) ^ (0 : ℤ))) := rfl
  rw [h, JSNum.fin.injEq]
  norm_num

theorem parseFloat_eval_25 : parseFloat "2.5" = JSNum.fin (5/2) := by
  have h : parseFloat "2.5" =
      JSNum.fin ((((2 : ℚ) + (5 : ℚ) / (10 : ℚ) ^ (1 : ℕ)) * (10 : ℚ) ^ (0 : ℤ))) := rfl
  rw [h, JSNum.fin.injEq]
  norm_num

theorem parseFloat_eval_100 : parseFloat "100" = JSNum.fin 100 := by
  have h : parseFloat "100" =
      JSNum.fin ((((100 : ℚ) + (0 : ℚ) / (10 : ℚ) ^ (0 : ℕ)) * (10 : ℚ) ^ (0 : ℤ))) := rfl
  rw [h, JSNum.fin.injEq]
  norm_num

theorem jsNewDate_eval_sample :
    jsNewDate "2020-05-06T07:08:09.010Z" = DateVal.valid 1588748889010 := by decide

theorem parseGPXFallback_wptTimeDoc : parseGPXFallback wptTimeDoc = Except.ok wptTimeData := by
  have h : parseGPXFallback wptTimeDoc =
      Except.ok
        { name := some "Summit", desc := none, author := none, tracks := [],
          waypoints := [⟨parseFloat "1.5", parseFloat "2.5", some (parseFloat "100"),
            some (jsNewDate "2020-05-06T07:08:09.010Z"), some "Summit"⟩] } := rfl
  rw [h]
  simp only [wptTimeData, parseFloat_eval_15, parseFloat_eval_25, parseFloat_eval_100,
    jsNewDate_eval_sample]

theorem timedSeg_duration : (computeTrackStats timedSeg).duration = some (JSNum.fin 10) := by
  have h : (computeTrackStats timedSeg).duration =
      some (JSNum.fin (((10000 : ℚ) + -(0 : ℚ)) / (1000 : ℚ))) := rfl
  rw [h, Option.some.injEq, JSNum.fin.injEq]
  norm_num

theorem bigProfileSeg_raw_length : (elevationProfileRaw bigProfileSeg).length > 5000 := by
  rw [elevationProfileRaw_length]
  have h : bigProfileSeg.points = List.replicate 5001 sampleElePoint := rfl
  rw [h, List.filter_replicate]
  norm_num [sampleElePoint]

theorem smallProfileSeg_raw_length : (elevationProfileRaw smallProfileSeg).length ≤ 5000 := by
  rw [elevationProfileRaw_length]
  simp [smallProfileSeg, sampleElePoint]

/-! ## The claims -/

/-- Claim C1 (amended): the round trip `deserializeGPXData ∘ serializeGPXData`
is the identity on every transport-safe track model — one whose point names
are never the empty string and whose timestamps are valid dates in the
ECMAScript range — and every track the fallback parsing strategy produces is
transport-safe, so the round trip holds on all of its output, preserving
presence and absence of every optional field, timestamps to the
millisecond, and segment and point order.  (As stated over all producible
tracks the claim fails: the conversion-backed strategy copies a `time`
property into `new Date(...)` unchecked, and `serializeGPXData` throws
`Invalid time value` on the resulting invalid date; see the
counterexample.) -/
theorem claim_C1 :
    (∀ t : GPXData, goodGPXData t = true →
      ∃ s, serializeGPXData t = Except.ok s ∧ deserializeGPXData s = t) ∧
    (∀ (d : XNode) (t : GPXData), parseGPXFallback d = Except.ok t →
      goodGPXData t = true) :=
  ⟨serializeGPXData_roundtrip, parseGPXFallback_good⟩

/-- Witness for C1: a concrete document with a named, timed waypoint whose
fallback parse is transport-safe and survives the round trip. -/
theorem claim_C1_witness :
    (∃ s, serializeGPXData wptTimeData = Except.ok s ∧
      deserializeGPXData s = wptTimeData) ∧
    goodGPXData wptTimeData = true :=
  ⟨claim_C1.1 wptTimeData (by decide),
   claim_C1.2 wptTimeDoc wptTimeData parseGPXFallback_wptTimeDoc⟩

/-- Counterexample to C1 as stated: a track producible by the
conversion-backed strategy (a point feature whose `time` property is not a
date) on which serialization throws instead of round-tripping. -/
theorem claim_C1_counterexample :
    parseGPX (Except.ok badTimeFC) plainGpxDoc = Except.ok (convertFeatures badTimeFC) ∧
    serializeGPXData (convertFeatures badTimeFC) = Except.error "Invalid time value" := by
  constructor
  · decide
  · decide

/-- Claim C2 (amended): a point element is dropped exactly when its `lat`
or `lon` attribute is missing or parses to `NaN` — not when it is merely
non-finite, for `parseFloat('Infinity')` passes the code's `isNaN` test and
the point is kept (see the counterexample) — and dropping a point never
fails the document: parsing still succeeds on every document without a
`parsererror` element. -/
theorem claim_C2 (el : XNode) :
    (parsePoint el = none ↔
      el.getAttribute "lat" = none ∨ el.getAttribute "lon" = none ∨
      (∃ s, el.getAttribute "lat" = some s ∧ (parseFloat s).isNaN = true) ∨
      (∃ s, el.getAttribute "lon" = some s ∧ (parseFloat s).isNaN = true)) ∧
    (∀ d : XNode, (docQS d "parsererror").isSome = false →
      ∃ t, parseGPXFallback d = Except.ok t) :=
  ⟨parsePoint_eq_none_iff el, parseGPXFallback_total⟩

/-- Witness for C2: the point missing its `lat` attribute is dropped, and a
document containing it still parses. -/
theorem claim_C2_witness :
    parsePoint (XNode.element "trkpt" [("lon", "8.0")] []) = none ∧
    ∃ t, parseGPXFallback missingLatDoc = Except.ok t :=
  ⟨(claim_C2 (XNode.element "trkpt" [("lon", "8.0")] [])).1.mpr (Or.inl (by decide)),
   (claim_C2 (XNode.element "trkpt" [] [])).2 missingLatDoc (by decide)⟩

/-- Counterexample to C2 as stated: `lat="Infinity"` does not parse as a
finite number, yet the point is kept with infinite coordinates rather than
dropped. -/
theorem claim_C2_counterexample :
    parseFloat "Infinity" = JSNum.inf ∧
    parseGPXFallback infLatDoc =
      Except.ok
        { name := none, desc := none, author := none,
          tracks := [⟨[⟨JSNum.inf, JSNum.inf, none, none, none⟩]⟩],
          waypoints := [] } := by
  constructor
  · decide
  · decide

/-- Claim C3 (amended): under the fallback strategy every materialized
segment is non-empty, and a document all of whose point elements are
unparsable yields the empty-but-valid track model rather than an error.
Under the conversion-backed strategy the claim fails: a line feature with
an empty coordinate list becomes an empty segment (see the
counterexample). -/
theorem claim_C3 (d : XNode) (t : GPXData) (h : parseGPXFallback d = Except.ok t) :
    (∀ seg ∈ t.tracks, seg.points ≠ []) ∧
    ((∀ trk ∈ docAll d "trk", ∀ seg ∈ trk.qsAll "trkseg",
        ∀ pt ∈ seg.qsAll "trkpt", parsePoint pt = none) →
      (∀ rte ∈ docAll d "rte", ∀ pt ∈ rte.qsAll "rtept", parsePoint pt = none) →
      (∀ wpt ∈ docAll d "wpt", parsePoint wpt = none) →
      t.tracks = [] ∧ t.waypoints = []) :=
  ⟨parseGPXFallback_segments_nonempty d t h,
   fun h1 h2 h3 => parseGPXFallback_all_unparsable d t h h1 h2 h3⟩

/-- Witness for C3: the document whose only points are unparsable yields
empty (but valid) track and waypoint lists. -/
theorem claim_C3_witness :
    ({ name := none, desc := none, author := none, tracks := [],
       waypoints := [] } : GPXData).tracks = [] ∧
    ({ name := none, desc := none, author := none, tracks := [],
       waypoints := [] } : GPXData).waypoints = [] :=
  (claim_C3 missingLatDoc _ (by decide)).2 (by decide) (by decide) (by decide)

/-- Counterexample to C3 as stated: the conversion-backed strategy turns a
`LineString` feature with no coordinates into a segment with no points. -/
theorem claim_C3_counterexample :
    parseGPX (Except.ok emptyLineFC) plainGpxDoc =
      Except.ok
        { name := none, desc := none, author := none,
          tracks := [⟨[]⟩], waypoints := [] } := by
  decide

/-- Claim C4 (amended): parsing fails — with the `Error parsing GPX XML`
condition — exactly when the parsed document contains a `parsererror`
element, the host DOM parser's signal for markup that is not well-formed;
and a document whose `trkpt` merely lacks `lat` succeeds with that point
absent.  The "if and only if the text is not well-formed XML" reading
fails: a well-formed document containing a literal `parsererror` element is
also rejected (see the counterexample). -/
theorem claim_C4 (conv : Except String FeatureCollection) (d : XNode) :
    ((∃ e, parseGPX conv d = Except.error e) ↔ (docQS d "parsererror").isSome = true) ∧
    parseGPXFallback missingLatDoc =
      Except.ok
        { name := none, desc := none, author := none, tracks := [],
          waypoints := [] } :=
  ⟨parseGPX_error_iff conv d, by decide⟩

/-- Counterexample to C4 as stated: a well-formed document that happens to
contain a `parsererror` element is rejected even though it is valid XML. -/
theorem claim_C4_counterexample :
    parseGPX (Except.ok ⟨[], none, none⟩) litParsererrorDoc =
      Except.error "Error parsing GPX XML" := by
  decide

/-- Claim C5 (confirmed): when the full elevation profile exceeds 5000
entries the returned profile keeps the original first and last entries and
has at most 2001 entries; at 5000 entries or fewer the full profile is
returned unchanged. -/
theorem claim_C5 (t : TrackSegment) :
    ((elevationProfileRaw t).length > 5000 →
      (computeElevationProfile t).head? = (elevationProfileRaw t).head? ∧
      (computeElevationProfile t).getLast? = (elevationProfileRaw t).getLast? ∧
      (computeElevationProfile t).length ≤ 2001) ∧
    ((elevationProfileRaw t).length ≤ 5000 →
      computeElevationProfile t = elevationProfileRaw t) :=
  computeElevationProfile_spec t

/-- Witness for C5: a 5001-point segment is downsampled with first and last
entries kept, and a one-point segment is returned unchanged. -/
theorem claim_C5_witness :
    ((computeElevationProfile bigProfileSeg).head? =
        (elevationProfileRaw bigProfileSeg).head? ∧
      (computeElevationProfile bigProfileSeg).getLast? =
        (elevationProfileRaw bigProfileSeg).getLast? ∧
      (computeElevationProfile bigProfileSeg).length ≤ 2001) ∧
    computeElevationProfile smallProfileSeg = elevationProfileRaw smallProfileSeg :=
  ⟨(claim_C5 bigProfileSeg).1 bigProfileSeg_raw_length,
   (claim_C5 smallProfileSeg).2 smallProfileSeg_raw_length⟩

/-- Claim C6 (amended): on a segment whose points all carry a finite
elevation, `elevGain - elevLoss` equals the last elevation minus the first.
With merely present (possibly infinite) elevations the identity fails: an
`Infinity` elevation drives the loss accumulator to `NaN` (see the
counterexample). -/
theorem claim_C6 (seg : TrackSegment) (p0 : Waypoint)
    (h0 : seg.points.head? = some p0)
    (hall : ∀ p ∈ seg.points, ∃ q : ℚ, p.ele = some (JSNum.fin q)) :
    JSNum.sub (computeTrackStats seg).elevGain (computeTrackStats seg).elevLoss =
      JSNum.sub ((seg.points.getLast?.bind Waypoint.ele).getD JSNum.nan)
        ((seg.points.head?.bind Waypoint.ele).getD JSNum.nan) :=
  computeTrackStats_gain_sub_loss seg p0 h0 hall

/-- Witness for C6: the telescoping identity on a concrete three-point
segment with finite elevations. -/
theorem claim_C6_witness :
    JSNum.sub (computeTrackStats finEleSeg).elevGain (computeTrackStats finEleSeg).elevLoss =
      JSNum.sub ((finEleSeg.points.getLast?.bind Waypoint.ele).getD JSNum.nan)
        ((finEleSeg.points.head?.bind Waypoint.ele).getD JSNum.nan) :=
  claim_C6 finEleSeg ⟨JSNum.fin 0, JSNum.fin 0, some (JSNum.fin 0), none, none⟩ rfl
    (by
      intro p hp
      simp only [finEleSeg, List.mem_cons, List.not_mem_nil, or_false] at hp
      rcases hp with rfl | rfl | rfl
      · exact ⟨0, rfl⟩
      · exact ⟨5, rfl⟩
      · exact ⟨3, rfl⟩)

/-- Counterexample to C6 over all elevation-bearing segments: with an
infinite elevation every point still "carries an elevation value", but the
left side is `NaN` while the right side is `-Infinity`. -/
theorem claim_C6_counterexample :
    (∀ p ∈ infEleSeg.points, p.ele.isSome = true) ∧
    JSNum.sub (computeTrackStats infEleSeg).elevGain (computeTrackStats infEleSeg).elevLoss =
      JSNum.nan ∧
    JSNum.sub ((infEleSeg.points.getLast?.bind Waypoint.ele).getD JSNum.nan)
      ((infEleSeg.points.head?.bind Waypoint.ele).getD JSNum.nan) = JSNum.ninf := by
  refine ⟨by decide, rfl, by decide⟩

/-- Claim C7 (confirmed): `duration` is absent exactly when the first or
the last point lacks a timestamp; `avgSpeed` is absent whenever `duration`
is absent or non-positive, and otherwise equals distance divided by
duration. -/
theorem claim_C7 (seg : TrackSegment) :
    ((computeTrackStats seg).duration = none ↔
      (seg.points.head?.bind Waypoint.time = none ∨
        seg.points.getLast?.bind Waypoint.time = none)) ∧
    ((computeTrackStats seg).duration = none → (computeTrackStats seg).avgSpeed = none) ∧
    (∀ q : ℚ, (computeTrackStats seg).duration = some (JSNum.fin q) →
      ((computeTrackStats seg).avgSpeed = none ↔ q ≤ 0) ∧
      (0 < q → (computeTrackStats seg).avgSpeed =
        some ((computeTrackStats seg).distance / (q : ℝ)))) :=
  computeTrackStats_duration_avgSpeed seg

/-- Witness for C7: a two-point segment timed ten seconds apart has a
positive duration and the quotient average speed. -/
theorem claim_C7_witness :
    (computeTrackStats timedSeg).avgSpeed =
      some ((computeTrackStats timedSeg).distance / ((10 : ℚ) : ℝ)) :=
  ((claim_C7 timedSeg).2.2 10 timedSeg_duration).2 (by norm_num)

/-- Claim C8 (confirmed): the haversine distance is a total function that
is nonnegative, symmetric, and zero on coincident points. -/
theorem claim_C8 (a b : Waypoint) :
    0 ≤ haversineDistance a b ∧ haversineDistance a b = haversineDistance b a ∧
    haversineDistance a a = 0 :=
  ⟨haversineDistance_nonneg a b, haversineDistance_symm a b, haversineDistance_self a⟩

/-- Claim C9 (confirmed): terminating the pool rejects exactly the pending
submissions with `Pool terminated`, keeps every earlier settlement,
empties the pending table, terminates the workers, is idempotent, and
settles nothing when nothing is pending. -/
theorem claim_C9 (st : PoolState) :
    (WorkerPool.terminate st).settled =
      st.settled ++ st.pending.map (fun i => (i, Outcome.rejected "Pool terminated")) ∧
    (WorkerPool.terminate st).pending = [] ∧
    (WorkerPool.terminate st).workerCount = 0 ∧
    WorkerPool.terminate (WorkerPool.terminate st) = WorkerPool.terminate st ∧
    (st.pending = [] → (WorkerPool.terminate st).settled = st.settled) :=
  workerPool_terminate_spec st

/-- Witness for C9: terminating a fresh pool with zero pending requests
settles nothing. -/
theorem claim_C9_witness :
    (WorkerPool.terminate (WorkerPool.init 4)).settled = (WorkerPool.init 4).settled :=
  (claim_C9 (WorkerPool.init 4)).2.2.2.2 rfl

/-- Claim C10 (confirmed): the statistics functions are total even on the
segments the data-model invariant excludes — the empty segment yields the
all-zero, all-absent statistics record, and a segment with no
elevation-bearing point yields the empty profile. -/
theorem claim_C10 (seg : TrackSegment) :
    (seg.points = [] →
      computeTrackStats seg =
        ⟨0, JSNum.fin 0, JSNum.fin 0, none, none, none, none⟩) ∧
    ((∀ p ∈ seg.points, p.ele = none) → computeElevationProfile seg = []) := by
  constructor
  · intro h
    rcases seg with ⟨pts⟩
    cases h
    exact computeTrackStats_empty
  · exact computeElevationProfile_no_ele seg

/-- Witness for C10: the empty segment and a one-point segment without
elevation. -/
theorem claim_C10_witness :
    computeTrackStats ⟨[]⟩ = ⟨0, JSNum.fin 0, JSNum.fin 0, none, none, none, none⟩ ∧
    computeElevationProfile ⟨[⟨JSNum.fin 1, JSNum.fin 2, none, none, none⟩]⟩ = [] :=
  ⟨(claim_C10 ⟨[]⟩).1 rfl,
   (claim_C10 ⟨[⟨JSNum.fin 1, JSNum.fin 2, none, none, none⟩]⟩).2 (by decide)⟩
